import Mathlib

/-!
Verification development for the Twenty44 WhatsApp booking bot.

The definitions below are a shallow embedding of the conversation state
machine in `src/routes/whatsapp.js` (the router mounted by `src/server.js`)
together with the Razorpay payment webhook in `routes/razorpayWebhook.js`.
Pure JavaScript helpers (slot-label normalization, time extraction, the
slot-catalog build and resolution chain) become Lean functions; one webhook
delivery becomes one evaluation of `handleMessage` over an explicit session
state, with the external collaborators (calendar availability, calendar
event creation, the clock) passed in as an explicit environment record.
-/

/-! ## Characters and whitespace

Models the character classes used by the JavaScript regexes in
`routes/whatsapp.js`: `\s` (whitespace) and the dash variants
(en dash, em dash, minus sign) replaced by `normalizeSlot`.
-/

/-- Whitespace test mirroring the JavaScript `\s` class on the characters
that can realistically occur in slot labels (space, tab, newline, carriage
return, vertical tab, form feed, no-break space). -/
def isWSp (c : Char) : Bool :=
  c == ' ' || c == '\t' || c == '\n' || c == '\r' || c == '\x0b' || c == '\x0c' || c == ' '

/-- Dash variants unified by `normalizeSlot`: en dash, em dash, minus sign
(the alternatives of the regex in the second `.replace`). -/
def isDashVariant (c : Char) : Bool :=
  c == '–' || c == '—' || c == '−'

/-- One pass of the JavaScript `.replace(/\s+/g, " ")`: every maximal run of
whitespace becomes a single space.  The flag records whether the previous
character written was part of a whitespace run. -/
def collapseWS : Bool → List Char → List Char
  | _, [] => []
  | prev, c :: cs =>
    if isWSp c then
      if prev then collapseWS true cs else ' ' :: collapseWS true cs
    else c :: collapseWS false cs

/-- The JavaScript `.replace(/–|—|−/g, "-")`: dash variants become a hyphen. -/
def dashify (l : List Char) : List Char :=
  l.map (fun c => if isDashVariant c then '-' else c)

/-- Removes a trailing whitespace run (the tail half of `.trim()`). -/
def dropTrailWS : List Char → List Char
  | [] => []
  | c :: cs =>
    match dropTrailWS cs with
    | [] => if isWSp c then [] else [c]
    | rest => c :: rest

/-- The JavaScript `.trim()`: drop leading and trailing whitespace. -/
def trimChars (l : List Char) : List Char :=
  dropTrailWS (l.dropWhile (fun c => isWSp c))

/-- The helper normalizer of `routes/whatsapp.js` line 95:
`(s) => String(s || "").replace(/\s+/g, " ").replace(/–|—|−/g, "-").trim()`. -/
def normalizeSlot (s : String) : String :=
  ⟨trimChars (dashify (collapseWS false s.data))⟩

/-- The JavaScript `String.prototype.trim` on whole strings, used for the
inbound text body and the canonical token. -/
def jsTrim (s : String) : String := ⟨trimChars s.data⟩

/-- The test `/^\d+$/.test(msg)`: non-empty and all decimal digits. -/
def digitsOnly (s : String) : Bool :=
  !s.isEmpty && s.data.all (fun c => c.isDigit)

/-! ## Time extraction

`extractTimes` (lines 96-100) matches `/(\d{1,2}:\d{2}).*?(\d{1,2}:\d{2})/`
against a slot label and pads each captured time to `HH:MM`.
-/

/-- Match `\d{2}:\d{2}` at the head of the character list. -/
def twoDigitTimeAt : List Char → Option (List Char × List Char)
  | a :: b :: e :: c :: d :: rest =>
    if a.isDigit && b.isDigit && e == ':' && c.isDigit && d.isDigit then
      some ([a, b, e, c, d], rest)
    else none
  | _ => none

/-- Match `\d{1}:\d{2}` at the head of the character list. -/
def oneDigitTimeAt : List Char → Option (List Char × List Char)
  | a :: e :: c :: d :: rest =>
    if a.isDigit && e == ':' && c.isDigit && d.isDigit then
      some ([a, e, c, d], rest)
    else none
  | _ => none

/-- Match `\d{1,2}:\d{2}` at the head, greedy on the digit count as the
JavaScript regex engine is. -/
def timeAt (l : List Char) : Option (List Char × List Char) :=
  match twoDigitTimeAt l with
  | some r => some r
  | none => oneDigitTimeAt l

/-- Leftmost match of `\d{1,2}:\d{2}` anywhere in the list, returning the
matched characters and the remainder after the match. -/
def firstTimeFrom : List Char → Option (List Char × List Char)
  | [] => none
  | c :: rest =>
    match timeAt (c :: rest) with
    | some r => some r
    | none => firstTimeFrom rest

/-- The `padStart(5, "0")` applied to each captured time. -/
def padTo5 (t : List Char) : String :=
  if t.length == 4 then ⟨'0' :: t⟩ else ⟨t⟩

/-- Scan for the first position where both capture groups of
`/(\d{1,2}:\d{2}).*?(\d{1,2}:\d{2})/` succeed (the lazy `.*?` takes the
earliest second time after the first). -/
def extractTimesAux : List Char → Option (List Char × List Char)
  | [] => none
  | c :: rest =>
    match timeAt (c :: rest) with
    | some (t1, r1) =>
      match firstTimeFrom r1 with
      | some (t2, _) => some (t1, t2)
      | none => extractTimesAux rest
    | none => extractTimesAux rest

/-- The helper `extractTimes` of `routes/whatsapp.js` lines 96-100: the
start/end `HH:MM` pair parsed out of a slot label, or `none` when the label
has no two clock times. -/
def extractTimes (s : String) : Option (String × String) :=
  (extractTimesAux s.data).map (fun p => (padTo5 p.1, padTo5 p.2))

/-! ## Small list helpers shared by the handler -/

/-- First-occurrence deduplication, the order-preserving semantics of
`Array.from(new Set(xs))`. -/
def dedupAux : List String → List String → List String
  | _, [] => []
  | seen, s :: rest =>
    if seen.contains s then dedupAux seen rest
    else s :: dedupAux (s :: seen) rest

/-- `Array.from(new Set(xs))`: keep the first occurrence of each element. -/
def dedupFirst (l : List String) : List String := dedupAux [] l

/-- Association-list lookup standing for a JavaScript object keyed by the
synthetic slot ids (the build sites never repeat a key). -/
def lookupA : List (String × String) → String → Option String
  | [], _ => none
  | (k, v) :: rest, key => if k == key then some v else lookupA rest key

/-- Substring test used for the sport keywords (`msgLower.includes("padel")`). -/
def charsStartWith : List Char → List Char → Bool
  | [], _ => true
  | _ :: _, [] => false
  | a :: as, b :: bs => a == b && charsStartWith as bs

/-- Containment of `needle` in `hay` as a contiguous character run. -/
def charsContain (needle : List Char) : List Char → Bool
  | [] => charsStartWith needle []
  | c :: t => charsStartWith needle (c :: t) || charsContain needle t

/-- `hay.includes(needle)` on strings. -/
def strIncludes (hay needle : String) : Bool := charsContain needle.data hay.data

/-! ## JavaScript string helpers on explicit character lists

The Lean core `String` functions go through byte positions that the kernel
cannot reduce, so the handler uses these character-list versions, which are
also the more direct transcription of what the JavaScript does.
-/

/-- `String.prototype.toLowerCase`, character by character. -/
def lowerStr (s : String) : String := ⟨s.data.map Char.toLower⟩

/-- Decimal value of an all-digit string (the effect of `Number(msg)` on a
string accepted by `/^\d+$/`). -/
def parseNatAux : List Char → Nat → Nat
  | [], acc => acc
  | c :: cs, acc => parseNatAux cs (acc * 10 + (c.toNat - 48))

/-- `Number(msg)` on a string known to match `/^\d+$/`. -/
def parseNat (s : String) : Nat := parseNatAux s.data 0

/-- `msg.startsWith(pre)`. -/
def startsWithStr (s pre : String) : Bool := charsStartWith pre.data s.data

/-- `msg.split("_")` on the character list. -/
def splitUnd : List Char → List (List Char)
  | [] => [[]]
  | c :: cs =>
    if c == '_' then [] :: splitUnd cs
    else
      match splitUnd cs with
      | [] => [[c]]
      | g :: gs => (c :: g) :: gs

/-- `msg.split("_")[1]` as a string, when present. -/
def secondField (s : String) : Option String :=
  ((splitUnd s.data).get? 1).map (fun l => String.mk l)

/-- Decimal rendering used for the synthetic ids `slot_<i>` and `week_<i>`
(the effect of JavaScript template interpolation of a number).  The first
argument is structural fuel, always called with at least the number itself. -/
def natDigitsRevFuel : Nat → Nat → List Nat
  | _, 0 => []
  | 0, _+1 => []
  | fuel+1, n+1 => ((n+1) % 10) :: natDigitsRevFuel fuel ((n+1) / 10)

/-- One decimal digit as a character. -/
def digitChar (d : Nat) : Char := Char.ofNat (48 + d)

/-- Decimal string of a natural number (JavaScript number-to-string). -/
def natStr (n : Nat) : String :=
  if n = 0 then "0" else ⟨((natDigitsRevFuel n n).map digitChar).reverse⟩

/-! ## Data model

The persisted session is the Mongo `Booking` document of `models/Booking.js`
plus the `meta` scratch object the router stores on it.  JavaScript fields
whose absence the router tests for truthiness are modelled as `Option`
(an empty array is truthy in JavaScript, so `Option (List _)` keeps the
present-but-empty case distinct from the absent case).
-/

/-- The `meta` scratch object: the dedupe marker, the ephemeral slot catalog
(`slotMap` as an id-to-label association in insertion order plus the ordered
`currentSlots`), the offered date rows (id and ISO date; the display title is
presentation-only and is not read back) and the offered other-weeks entries
(id and start ISO; their display title is likewise never read back). -/
structure BMeta where
  lastMessageId : Option String := none
  slotMap : Option (List (String × String)) := none
  currentSlots : Option (List String) := none
  lastDateRows : Option (List (String × String)) := none
  otherWeeks : List (String × String) := []
  deriving Repr, DecidableEq

/-- The `Booking` session document of `models/Booking.js`. -/
structure Booking where
  phone : String
  step : String := "sport_selection"
  sport : Option String := none
  centre : Option String := none
  date : Option String := none
  time_slot : Option String := none
  players : Option Nat := none
  addons : List String := []
  name : Option String := none
  paid : Bool := false
  calendarEventId : Option String := none
  totalAmount : Option Nat := none
  meta : BMeta := {}
  deriving Repr, DecidableEq

/-- One inbound webhook message: WhatsApp message id, optional interactive
button reply (id, title), optional interactive list reply (id, title),
optional free-text body, and the sender address. -/
structure InMessage where
  id : Option String := none
  buttonReply : Option (String × String) := none
  listReply : Option (String × String) := none
  textBody : Option String := none
  sender : String
  deriving Repr, DecidableEq

/-- One outbound side effect handed to the messaging collaborator: a plain
text, a button set, or a list (rows as id-title pairs; section wrappers and
row descriptions are presentation detail not modelled). -/
inductive Outbound where
  | text (dest body : String)
  | buttons (dest body : String) (btns : List (String × String))
  | listRows (dest body : String) (rows : List (String × String))
  deriving Repr, DecidableEq

/-- The observable outcome of one webhook delivery: the persisted session
afterwards (`none` when it was deleted) and the outbound messages sent. -/
structure HandlerResult where
  booking : Option Booking
  out : List Outbound
  deriving Repr, DecidableEq

/-- The external collaborators and ambient inputs of one delivery: the reply
of `getAvailableSlotsForDate` for the one date the run queries (a thrown
transient failure is the caught empty list), the outcome of `createEvent`
(`none` when it throws), the clock-derived date lists, the date formatter of
`dateHelpers.js` (not under `src/`, display-only), and the payment reference
(`booking._id`) interpolated into the payment link. -/
structure WEnv where
  avail : List String := []
  eventResult : Option String := none
  todayIso : String := ""
  weekIsos : List String := []
  otherWeekStarts : List String := []
  daysOfWeek : String → List String := fun _ => []
  fmtDate : String → String := id
  bookingRef : String := ""

/-! ## Slot catalog build and resolution -/

/-- The synthetic catalog id `slot_<i>`. -/
def slotId (i : Nat) : String := "slot_" ++ natStr i

/-- The `forEach((s, i) => slotMap[slot_i] = s)` build, generalized over the
starting index so that the lookup lemmas can recurse. -/
def buildPairsFrom (k : Nat) : List String → List (String × String)
  | [] => []
  | s :: rest => (slotId k, s) :: buildPairsFrom (k + 1) rest

/-- The id-to-label association built for a list of offered labels. -/
def buildPairs (cs : List String) : List (String × String) := buildPairsFrom 0 cs

/-- Truthy object lookup `obj[msg]`: an empty-string value is falsy and
behaves like a missing key in the `if` chain. -/
def truthyLookup (sm : List (String × String)) (key : String) : Option String :=
  match lookupA sm key with
  | some v => if v = "" then none else some v
  | none => none

/-- The slot resolution chain of `routes/whatsapp.js` lines 375-398: exact
`slotMap` id (truthy), then numeric 1-based index into `currentSlots` (taken
whenever the reply is all digits and the field exists, even out of range),
then exact label, then case-insensitive normalized label. -/
def resolveChosen (meta : BMeta) (msg : String) : Option String :=
  match meta.slotMap.bind (fun sm => truthyLookup sm msg) with
  | some v => some v
  | none =>
    if digitsOnly msg = true ∧ meta.currentSlots.isSome = true then
      match parseNat msg with
      | 0 => none
      | n + 1 => (meta.currentSlots.getD []).get? n
    else if (meta.currentSlots.getD []).contains msg = true then
      some msg
    else
      (meta.currentSlots.getD []).find?
        (fun c => lowerStr (normalizeSlot c) == lowerStr (normalizeSlot msg))

/-- The final `if (!chosen)` truthiness test: `null` and the empty string
are both rejected. -/
def truthyChosen : Option String → Option String
  | some s => if s = "" then none else some s
  | none => none

/-- The fixed per-bucket template of lines 248-261. -/
def todTemplate (msg : String) : List String :=
  if msg = "tod_morning" then
    ["06:00 - 07:00", "07:00 - 08:00", "08:00 - 09:00", "09:00 - 10:00",
     "10:00 - 11:00", "11:00 - 12:00"]
  else if msg = "tod_afternoon" then
    ["12:00 - 13:00", "13:00 - 14:00", "14:00 - 15:00", "15:00 - 16:00",
     "16:00 - 17:00"]
  else
    ["17:00 - 18:00", "18:00 - 19:00", "19:00 - 20:00", "20:00 - 21:00",
     "21:00 - 22:00"]

/-- The template-against-availability intersection of lines 281-293: filter
by normalized string equality, and only when that yields nothing (and some
availability exists) fall back to matching extracted `HH:MM` ranges. -/
def computeAvailable (templateSlots uniqAvail : List String) : List String :=
  let available := templateSlots.filter (fun t => uniqAvail.contains (normalizeSlot t))
  if available.isEmpty && !uniqAvail.isEmpty then
    let availRanges := uniqAvail.filterMap extractTimes
    if !availRanges.isEmpty then
      templateSlots.filter (fun t =>
        match extractTimes t with
        | none => false
        | some tt => availRanges.any (fun a => a == tt))
    else available
  else available

/-! ## Fixed button sets and message texts -/

/-- Sport choice buttons. -/
def sportButtons : List (String × String) :=
  [("sport_pickleball", "Pickleball"), ("sport_padel", "Padel")]

/-- Centre choice buttons. -/
def centreButtons : List (String × String) :=
  [("centre_jw", "JW Marriott"), ("centre_taj", "Taj West End"),
   ("centre_itc", "ITC Gardenia")]

/-- Date category buttons. -/
def dateButtons : List (String × String) :=
  [("date_today", "Today"), ("date_this_week", "This Week"),
   ("date_other", "Other Dates")]

/-- Time-of-day buttons. -/
def todButtons : List (String × String) :=
  [("tod_morning", "Morning"), ("tod_afternoon", "Afternoon"),
   ("tod_evening", "Evening")]

/-- Player count buttons. -/
def playersButtons : List (String × String) :=
  [("players_2", "2 players"), ("players_3", "3 players"),
   ("players_4", "4 players")]

/-- Date reselection buttons offered after a payment-time slot conflict. -/
def retryDateButtons : List (String × String) :=
  [("date_this_week", "This Week"), ("date_other", "Other Dates")]

/-- Welcome prompt sent when a session is first created. -/
def welcomeText : String :=
  "🏓 Welcome to Sports Booking Bot!\nLet\x27s get started. Which sport would you like to play?"

/-- Acknowledgment of the universal cancel command. -/
def cancelText : String :=
  "❌ Booking cancelled. Type \x271\x27 or \x27Start\x27 anytime to start again."

/-- The addons join: `addons.length ? addons.join(", ") : "None"`. -/
def addonsText (l : List String) : String :=
  if l.isEmpty then "None" else String.intercalate ", " l

/-- The pre-payment summary sent at the contact step. -/
def summaryText (env : WEnv) (b : Booking) : String :=
  "Final Booking Summary:\n\n• Sport: " ++ b.sport.getD "" ++
  "\n• Center: " ++ b.centre.getD "" ++
  "\n• Date: " ++ env.fmtDate (b.date.getD "") ++
  "\n• Time: " ++ b.time_slot.getD "" ++
  "\n• Players: " ++ natStr (b.players.getD 0) ++
  "\n• Add-ons: " ++ addonsText b.addons ++
  "\n• Total Amount: ₹" ++ natStr (b.totalAmount.getD 0) ++
  "\n\nPress \x27Done\x27 when payment completed."

/-- The final confirmation summary sent on successful commit. -/
def confirmText (env : WEnv) (b : Booking) : String :=
  "✅ Booking Confirmed!\n\nSport: " ++ b.sport.getD "" ++
  "\nCenter: " ++ b.centre.getD "" ++
  "\nDate: " ++ env.fmtDate (b.date.getD "") ++
  "\nTime: " ++ b.time_slot.getD "" ++
  "\nPlayers: " ++ natStr (b.players.getD 0) ++
  "\nAdd-ons: " ++ addonsText b.addons ++
  "\nTotal: ₹" ++ natStr (b.totalAmount.getD 0) ++
  "\n\nThank you — we\x27ll see you then!"

/-- Header of a slot offer for the session date. -/
def slotsHeader (env : WEnv) (b : Booking) : String :=
  "Available time slots for " ++ env.fmtDate (b.date.getD "") ++ ":"

/-- Message sent when the chosen bucket is empty but the day has slots. -/
def widenText (env : WEnv) (b : Booking) : String :=
  "No available slots in that time of day. Here are other slots available on " ++
  env.fmtDate (b.date.getD "") ++ ":"

/-- Message sent when the day has no availability at all at the bucket step. -/
def noTodText : String :=
  "Sorry, no available slots in that time of day. Please pick another time or date."

/-- Re-prompt after an unresolvable slot reply. -/
def invalidSlotText : String :=
  "Please select a valid time slot (reply with number or tap a button)."

/-- Conflict report of the post-selection recheck. -/
def slotTakenText : String :=
  "❌ Sorry that slot was just taken. Please pick another slot."

/-- Conflict report of the payment-time recheck. -/
def paymentConflictText : String :=
  "Sorry, the slot was taken before payment completed. Please choose another slot."

/-! ## Per-step handlers

One definition per `case` of the `switch (booking.step)` of the router, each
returning the session afterwards together with the outbound messages.
-/

/-- Case `sport_selection` (lines 105-119). -/
def stepSport (b : Booking) (msg msgLower sender : String) : HandlerResult :=
  if msg = "sport_pickleball" ∨ msg = "sport_padel" ∨
     strIncludes msgLower "pickle" = true ∨ strIncludes msgLower "padel" = true then
    let sport := if msg = "sport_padel" ∨ strIncludes msgLower "padel" = true then "Padel" else "Pickleball"
    let b1 := { b with sport := some sport, step := "centre_selection" }
    ⟨some b1, [.buttons sender
      ("Great choice! You\x27ve selected " ++ sport ++ ".\nWhich center would you like to book at?")
      centreButtons]⟩
  else
    ⟨some b, [.text sender "Please choose a sport by tapping a button (Pickleball / Padel)."]⟩

/-- Case `centre_selection` (lines 122-136). -/
def stepCentre (b : Booking) (msg sender : String) : HandlerResult :=
  if msg = "centre_jw" ∨ msg = "centre_taj" ∨ msg = "centre_itc" then
    let centre := if msg = "centre_jw" then "JW Marriott"
      else if msg = "centre_taj" then "Taj West End" else "ITC Gardenia"
    let b1 := { b with centre := some centre, step := "date_selection" }
    ⟨some b1, [.buttons sender
      ("Perfect! You\x27ve selected " ++ centre ++ ".\nWhen would you like to play?")
      dateButtons]⟩
  else
    ⟨some b, [.text sender "Please choose a center using the buttons."]⟩

/-- The `Choose time of day:` prompt sent after a date is fixed. -/
def chooseTodOut (env : WEnv) (iso sender : String) : Outbound :=
  .buttons sender
    ("Great! You\x27ve selected " ++ env.fmtDate iso ++ ".\nChoose time of day:") todButtons

/-- Week entries built for `date_other` (ids `week_1`..`week_3` with their
start dates; the display title is presentation-only). -/
def weeksFrom (k : Nat) : List String → List (String × String)
  | [] => []
  | s :: rest => ("week_" ++ natStr k, s) :: weeksFrom (k + 1) rest

/-- The `Week <i+1>` buttons over the stored week entries. -/
def weekButtonsFrom (k : Nat) : List (String × String) → List (String × String)
  | [] => []
  | (wid, _) :: rest => (wid, "Week " ++ natStr k) :: weekButtonsFrom (k + 1) rest

/-- The `week_<n>` resolution of lines 197-203: `Number(msg.split("_")[1])`
indexed 1-based into the stored week entries (a non-numeric or out-of-range
selection yields nothing). -/
def weekLookup (meta : BMeta) (msg : String) : Option (String × String) :=
  match (secondField msg).bind
      (fun t => if digitsOnly t = true then some (parseNat t) else none) with
  | some (w + 1) => meta.otherWeeks.get? w
  | _ => none

/-- The numeric fallback of lines 218-232: `Number(msg) - 1` indexed into
the stored date rows (index 0 in the reply falls outside the array). -/
def dateRowLookup (meta : BMeta) (msg : String) : Option (String × String) :=
  match parseNat msg with
  | 0 => none
  | n + 1 => (meta.lastDateRows.getD []).get? n

/-- Case `date_selection` (lines 139-238). -/
def stepDateSel (env : WEnv) (b : Booking) (msg sender : String) : HandlerResult :=
  if msg = "date_today" then
    if env.avail.isEmpty then
      ⟨some b, [.text sender "❗ Sorry, no slots available today. Please choose another option.",
                .buttons sender "Choose a date:" retryDateButtons]⟩
    else
      let b1 := { b with
        date := some env.todayIso
        step := "time_selection"
        meta := { b.meta with
          lastDateRows := some [("date_" ++ env.todayIso, env.todayIso)] } }
      ⟨some b1, [chooseTodOut env env.todayIso sender]⟩
  else if msg = "date_this_week" then
    let rows := env.weekIsos.map (fun iso => ("date_" ++ iso, iso))
    let b1 := { b with meta := { b.meta with lastDateRows := some rows } }
    ⟨some b1, [.listRows sender "Select a date this week:"
      (env.weekIsos.map (fun iso => ("date_" ++ iso, env.fmtDate iso)))]⟩
  else if msg = "date_other" then
    let weeks := weeksFrom 1 env.otherWeekStarts
    let b1 := { b with meta := { b.meta with otherWeeks := weeks } }
    ⟨some b1, [.buttons sender "Select which week (other dates):" (weekButtonsFrom 1 weeks)]⟩
  else if startsWithStr msg "date_" = true then
    let iso := ⟨msg.data.drop 5⟩
    let b1 := { b with date := some iso, step := "time_selection" }
    ⟨some b1, [chooseTodOut env iso sender]⟩
  else if startsWithStr msg "week_" = true then
    match weekLookup b.meta msg with
    | none => ⟨some b, [.text sender "Invalid week selection. Please pick again."]⟩
    | some (_, startIso) =>
      let dayList := (env.daysOfWeek startIso).map (fun iso => ("date_" ++ iso, iso))
      let b1 := { b with
        step := "date_selection"
        meta := { b.meta with lastDateRows := some dayList } }
      ⟨some b1, [.listRows sender "Select a date from the week:"
        ((env.daysOfWeek startIso).map (fun iso => ("date_" ++ iso, env.fmtDate iso)))]⟩
  else
    if b.meta.lastDateRows.isSome = true ∧ digitsOnly msg = true then
      match dateRowLookup b.meta msg with
      | some (_, iso) =>
        let b1 := { b with date := some iso, step := "time_selection" }
        ⟨some b1, [chooseTodOut env iso sender]⟩
      | none => ⟨some b, [.text sender "Please choose a valid option from the list."]⟩
    else
      ⟨some b, [.text sender "Please choose \x27Today\x27, \x27This Week\x27 or \x27Other Dates\x27 using the buttons."]⟩

/-- Case `time_selection` (lines 241-439). -/
def stepTimeSel (env : WEnv) (b : Booking) (msg sender : String) : HandlerResult :=
  if msg = "tod_morning" ∨ msg = "tod_afternoon" ∨ msg = "tod_evening" then
    let templateSlots := todTemplate msg
    let uniqAvail := dedupFirst (env.avail.map normalizeSlot)
    let available := computeAvailable templateSlots uniqAvail
    if available.isEmpty && !uniqAvail.isEmpty then
      let b1 := { b with meta := { b.meta with
        slotMap := some (buildPairs uniqAvail), currentSlots := some uniqAvail } }
      ⟨some b1, [.text sender (widenText env b),
                 .listRows sender (slotsHeader env b) (buildPairs uniqAvail)]⟩
    else if available.isEmpty then
      ⟨some b, [.text sender noTodText, .buttons sender "Choose time of day:" todButtons]⟩
    else
      let uniqAvailable := dedupFirst (available.map normalizeSlot)
      let b1 := { b with meta := { b.meta with
        slotMap := some (buildPairs uniqAvailable), currentSlots := some uniqAvailable } }
      if uniqAvailable.length ≤ 3 then
        ⟨some b1, [.buttons sender (slotsHeader env b) (buildPairs uniqAvailable)]⟩
      else
        ⟨some b1, [.listRows sender (slotsHeader env b) (buildPairs uniqAvailable)]⟩
  else
    match truthyChosen (resolveChosen b.meta msg) with
    | none => ⟨some b, [.text sender invalidSlotText]⟩
    | some chosen =>
      let normalizedNow := dedupFirst (env.avail.map normalizeSlot)
      if normalizedNow.contains (normalizeSlot chosen) = false then
        let cs := (b.meta.currentSlots.getD []).filter
          (fun s => normalizedNow.contains (normalizeSlot s))
        let b1 := { b with meta := { b.meta with
          slotMap := some (buildPairs cs), currentSlots := some cs } }
        ⟨some b1, [.text sender slotTakenText]⟩
      else
        let b1 := { b with time_slot := some chosen, step := "player_count" }
        ⟨some b1, [.buttons sender
          ("Perfect! You\x27ve chosen " ++ chosen ++ ".\nHow many players?") playersButtons]⟩

/-- Case `player_count` (lines 442-454). -/
def stepPlayers (b : Booking) (msg sender : String) : HandlerResult :=
  if msg = "players_2" ∨ msg = "players_3" ∨ msg = "players_4" ∨ digitsOnly msg = true then
    let num := if startsWithStr msg "players_" = true
      then ((secondField msg).map parseNat).getD 0
      else parseNat msg
    let b1 := { b with players := some num, step := "addons_selection" }
    ⟨some b1, [.text sender "Would you like to add any additional services?\n1. Spa (₹2000)\n2. Gym Access (₹500)\n3. Sauna (₹800)\n4. No thanks, proceed to payment\n\nPlease reply with the number of your choice."]⟩
  else
    ⟨some b, [.text sender "Please choose player count using the buttons (2/3/4) or send a number."]⟩

/-- Case `addons_selection` (lines 457-476), including the deterministic
total from the player count and the add-on price table. -/
def stepAddons (b : Booking) (msg sender : String) : HandlerResult :=
  if msg = "1" ∨ msg = "2" ∨ msg = "3" ∨ msg = "4" then
    let choice := if msg = "1" then "spa" else if msg = "2" then "gym"
      else if msg = "3" then "sauna" else "none"
    let addons : List String := if choice = "none" then [] else [choice]
    let playersOr1 := match b.players with
      | some p => if p = 0 then 1 else p
      | none => 1
    let total := playersOr1 * 300 +
      (if addons.contains "spa" then 2000 else 0) +
      (if addons.contains "gym" then 500 else 0) +
      (if addons.contains "sauna" then 800 else 0)
    let b1 := { b with addons := addons, totalAmount := some total, step := "collect_contact" }
    ⟨some b1, [.text sender "Please provide your full name:"]⟩
  else
    ⟨some b, [.text sender "Please reply 1,2,3 or 4 to choose add-ons."]⟩

/-- Case `collect_contact` (lines 479-495). -/
def stepContact (env : WEnv) (b : Booking) (msg sender : String) : HandlerResult :=
  if msg = "" ∨ msg.length < 2 then
    ⟨some b, [.text sender "Please provide a valid full name."]⟩
  else
    let b1 := { b with name := some msg, step := "payment" }
    ⟨some b1,
      [.text sender ("Please complete your payment using this link:\n\nhttps://example-payments.local/pay?ref=" ++ env.bookingRef),
       .text sender (summaryText env b1),
       .text sender "Please complete payment using this link. We\x27ll confirm automatically once payment is received."]⟩

/-- Case `payment` (lines 498-537): the commit transition with its final
availability recheck (a raw `includes` on the fetched labels) and the
non-fatal calendar-event attempt. -/
def stepPayment (env : WEnv) (b : Booking) (msg msgLower sender : String) : HandlerResult :=
  if msg = "payment_done" ∨ msgLower = "paid" ∨ msgLower = "done" then
    let stillThere := match b.time_slot with
      | some t => env.avail.contains t
      | none => false
    if stillThere = false then
      let b1 := { b with step := "date_selection" }
      ⟨some b1, [.text sender paymentConflictText,
                 .buttons sender "Pick a new date:" retryDateButtons]⟩
    else
      let b1 := match env.eventResult with
        | some eid => { b with calendarEventId := some eid }
        | none => b
      let b2 := { b1 with paid := true, step := "completed" }
      ⟨some b2, [.text sender (confirmText env b2)]⟩
  else if msg = "payment_cancel" ∨ msgLower = "cancel" then
    ⟨none, [.text sender "❌ Booking cancelled. Type \x271\x27 to start again."]⟩
  else
    ⟨some b, [.text sender "Press \x27Done\x27 after payment or \x27Cancel\x27 to abort."]⟩

/-- The `default` case (lines 539-545): unknown step resets to sport. -/
def stepDefault (b : Booking) (sender : String) : HandlerResult :=
  ⟨some { b with step := "sport_selection" },
   [.buttons sender "🏓 Welcome back! Which sport would you like to play?" sportButtons]⟩

/-- The `switch (booking.step)` dispatch. -/
def dispatchStep (env : WEnv) (b : Booking) (msg msgLower sender : String) : HandlerResult :=
  if b.step = "sport_selection" then stepSport b msg msgLower sender
  else if b.step = "centre_selection" then stepCentre b msg sender
  else if b.step = "date_selection" then stepDateSel env b msg sender
  else if b.step = "time_selection" then stepTimeSel env b msg sender
  else if b.step = "player_count" then stepPlayers b msg sender
  else if b.step = "addons_selection" then stepAddons b msg sender
  else if b.step = "collect_contact" then stepContact env b msg sender
  else if b.step = "payment" then stepPayment env b msg msgLower sender
  else stepDefault b sender

/-! ## The webhook handler -/

/-- The early filter: the run acts only when a button reply, a list reply,
or a non-empty text body is present (lines 33-39). -/
def hasContent (m : InMessage) : Bool :=
  m.buttonReply.isSome || m.listReply.isSome ||
  (match m.textBody with
   | some t => !(t == "")
   | none => false)

/-- First truthy value of the `||` chain. -/
def firstNonEmptyStr : List (Option String) → String
  | [] => ""
  | some s :: rest => if s = "" then firstNonEmptyStr rest else s
  | none :: rest => firstNonEmptyStr rest

/-- The canonical token (lines 42-56): list id, else button id, else list
title, else button title, else trimmed text body; trimmed. -/
def canonicalMsg (m : InMessage) : String :=
  jsTrim (firstNonEmptyStr
    [m.listReply.map Prod.fst, m.buttonReply.map Prod.fst,
     m.listReply.map Prod.snd, m.buttonReply.map Prod.snd,
     m.textBody.map jsTrim])

/-- The dedupe guard test of lines 76-81: a non-empty message id equal to
the non-empty recorded `meta.lastMessageId`. -/
def isDup (b : Booking) (m : InMessage) : Bool :=
  match m.id with
  | some i =>
    if i = "" then false
    else match b.meta.lastMessageId with
      | some l => !(l == "") && l == i
      | none => false
  | none => false

/-- Recording of a non-empty message id onto the session (lines 82-84),
done before any step-specific processing. -/
def recordId (b : Booking) (m : InMessage) : Booking :=
  match m.id with
  | some i =>
    if i = "" then b
    else { b with meta := { b.meta with lastMessageId := some i } }
  | none => b

/-- The fresh session created for an unseen identity (lines 62-67). -/
def newBooking (sender : String) : Booking := { phone := sender }

/-- One delivery of the main webhook (`router.post` of `routes/whatsapp.js`):
early filter, session creation with welcome for an unseen identity, dedupe
guard, universal cancel, then the per-step dispatch. -/
def handleMessage (env : WEnv) (db : Option Booking) (m : InMessage) : HandlerResult :=
  if hasContent m = false then ⟨db, []⟩
  else
    let msg := canonicalMsg m
    let msgLower := lowerStr msg
    let sender := m.sender
    match db with
    | none => ⟨some (newBooking sender), [.buttons sender welcomeText sportButtons]⟩
    | some b0 =>
      if isDup b0 m = true then ⟨some b0, []⟩
      else
        let b := recordId b0 m
        if msgLower = "exit" ∨ msgLower = "cancel" then
          ⟨none, [.text sender cancelText]⟩
        else dispatchStep env b msg msgLower sender

/-- The `payment_link.paid` branch of the Razorpay webhook
(`routes/razorpayWebhook.js` lines 42-100): the booking located by the link
reference id is marked paid and its step set to `completed` with no
availability recheck, then a calendar event is attempted (failure is
non-fatal) and a confirmation text is sent.  The razorpay bookkeeping
stored under `meta.razorpay` is payload archival the router never reads
back and is not modelled. -/
def razorpayLinkPaid (env : WEnv) (db : Option Booking) : HandlerResult :=
  match db with
  | none => ⟨none, []⟩
  | some b =>
    let b1 := { b with paid := true, step := "completed" }
    let b2 := match env.eventResult with
      | some eid => { b1 with calendarEventId := some eid }
      | none => b1
    ⟨some b2,
     [.text b.phone ("✅ Payment received — Booking Confirmed!\n\nSport: " ++
       b2.sport.getD "" ++ "\nCenter: " ++ b2.centre.getD "" ++
       "\nDate: " ++ env.fmtDate (b2.date.getD "") ++
       "\nTime: " ++ b2.time_slot.getD "" ++
       "\nPlayers: " ++ (b2.players.map natStr).getD "-" ++
       "\nAdd-ons: " ++ addonsText b2.addons ++
       "\nTotal: ₹" ++ natStr (b2.totalAmount.getD 0) ++ "\n\nThank you!")]⟩

/-! ## Predicates and helpers used by the statements and proofs -/

/-- Decimal value of a little-endian digit list (inverse of the rendering,
used to prove the synthetic ids injective). -/
def valN : List Nat → Nat
  | [] => 0
  | d :: ds => d + 10 * valN ds

/-- No whitespace character directly follows the previous one; with the flag
`true` also no whitespace at the head.  This is the shape `collapseWS`
guarantees of its output. -/
def wsOkAfter : Bool → List Char → Bool
  | _, [] => true
  | prev, c :: cs => !(prev && isWSp c) && wsOkAfter (isWSp c) cs

/-- The last character, when present, is not whitespace. -/
def noTrailWS : List Char → Bool
  | [] => true
  | [c] => !isWSp c
  | _ :: c :: cs => noTrailWS (c :: cs)

/-- A character as it appears in normalized output: any whitespace is a
plain space, and no dash variant remains. -/
def goodChar (c : Char) : Bool := (!isWSp c || c == ' ') && !isDashVariant c

/-- Characterization of the fixed points of `normalizeSlot`. -/
def canonicalChars (l : List Char) : Bool :=
  wsOkAfter true l && l.all goodChar && noTrailWS l

/-- The session scratch state after a catalog is built from the ordered
label list `L`: ids `slot_0 .. slot_(n-1)` mapped to the labels in order. -/
def catalogMeta (L : List String) : BMeta :=
  { slotMap := some (buildPairs L), currentSlots := some L }

/-- Consistency of the persisted catalog: either no catalog has been built
yet, or the id map is exactly `slot_0 .. slot_(n-1)` paired in order with
`currentSlots`, and the stored labels are pairwise distinct under
`normalizeSlot`. -/
def catalogOK (meta : BMeta) : Prop :=
  match meta.slotMap, meta.currentSlots with
  | none, none => True
  | some sm, some cs => sm = buildPairs cs ∧ (cs.map normalizeSlot).Nodup
  | _, _ => False

/-! ## Theorems

Everything from here on is a statement about the definitions above.
-/

/-- C4 counterexample: the three spec inputs do not normalize equally.
`normalizeSlot` collapses whitespace runs and unifies dash characters but
never removes the spaces around the separator, so the en-dash input loses
its (absent) spaces while the spaced input keeps them. -/
theorem c4_normalize_counterexample :
    normalizeSlot "10:00–11:00" ≠ normalizeSlot "10:00 - 11:00" := by decide

/-- C4 amended: `normalizeSlot` collapses each internal whitespace run to a
single space, replaces en dash, em dash and minus by a hyphen, and trims;
the three spec inputs therefore yield three pairwise distinct results, and
equality holds exactly between inputs that agree after that (for example
extra spaces around the dash, or a different dash character, are unified,
but presence versus absence of spaces around the dash is preserved). -/
theorem c4_normalize_amended :
    normalizeSlot "10:00–11:00" = "10:00-11:00" ∧
    normalizeSlot "10:00 - 11:00" = "10:00 - 11:00" ∧
    normalizeSlot "10:00   -11:00" = "10:00 -11:00" ∧
    normalizeSlot "10:00  -  11:00" = normalizeSlot "10:00 - 11:00" ∧
    normalizeSlot "10:00—11:00" = normalizeSlot "10:00–11:00" ∧
    normalizeSlot "  10:00 - 11:00  " = normalizeSlot "10:00 - 11:00" := by decide

/-! ### Injectivity of the synthetic decimal ids -/

theorem natDigitsRevFuel_lt10 :
    ∀ fuel n d, d ∈ natDigitsRevFuel fuel n → d < 10 := by
  intro fuel
  induction fuel with
  | zero =>
    intro n d h
    cases n <;> simp [natDigitsRevFuel] at h
  | succ fuel ih =>
    intro n d h
    cases n with
    | zero => simp [natDigitsRevFuel] at h
    | succ m =>
      simp only [natDigitsRevFuel, List.mem_cons] at h
      rcases h with h | h
      · exact h ▸ Nat.mod_lt _ (by decide)
      · exact ih _ _ h

theorem valN_natDigitsRevFuel :
    ∀ fuel n, n ≤ fuel → valN (natDigitsRevFuel fuel n) = n := by
  intro fuel
  induction fuel with
  | zero =>
    intro n h
    interval_cases n
    simp [natDigitsRevFuel, valN]
  | succ fuel ih =>
    intro n h
    cases n with
    | zero => simp [natDigitsRevFuel, valN]
    | succ m =>
      have hlt : (m + 1) / 10 < m + 1 := Nat.div_lt_self (Nat.succ_pos m) (by decide)
      have hle : (m + 1) / 10 ≤ fuel := by omega
      simp only [natDigitsRevFuel, valN, ih _ hle]
      exact Nat.mod_add_div (m + 1) 10

theorem digitChar_inj : ∀ d < 10, ∀ e < 10, digitChar d = digitChar e → d = e := by decide

theorem map_digitChar_inj :
    ∀ l1 l2 : List Nat, (∀ d ∈ l1, d < 10) → (∀ d ∈ l2, d < 10) →
      l1.map digitChar = l2.map digitChar → l1 = l2 := by
  intro l1
  induction l1 with
  | nil => intro l2 _ _ h; cases l2 <;> simp_all
  | cons d ds ih =>
    intro l2 h1 h2 h
    cases l2 with
    | nil => simp at h
    | cons e es =>
      simp only [List.map_cons, List.cons.injEq] at h
      have hd : d = e :=
        digitChar_inj d (h1 d (by simp)) e (h2 e (by simp)) h.1
      have ht : ds = es := ih es (fun x hx => h1 x (by simp [hx]))
        (fun x hx => h2 x (by simp [hx])) h.2
      simp [hd, ht]

theorem strMk_inj {l1 l2 : List Char} (h : (⟨l1⟩ : String) = ⟨l2⟩) : l1 = l2 := by
  injection h

theorem natStr_inj {a b : Nat} (h : natStr a = natStr b) : a = b := by
  unfold natStr at h
  by_cases ha : a = 0 <;> by_cases hb : b = 0
  · omega
  · exfalso
    rw [if_pos ha, if_neg hb] at h
    have hd := strMk_inj (show (⟨['0']⟩ : String) = ⟨_⟩ from h)
    have hrev : (natDigitsRevFuel b b).map digitChar = ['0'] := by
      have := congrArg List.reverse hd
      simpa using this.symm
    have hval : valN (natDigitsRevFuel b b) = b := valN_natDigitsRevFuel b b le_rfl
    rcases hdig : natDigitsRevFuel b b with _ | ⟨d, ds⟩
    · rw [hdig] at hval; simp [valN] at hval; omega
    · rw [hdig] at hrev
      cases ds with
      | nil =>
        simp only [List.map_cons, List.map_nil, List.cons.injEq] at hrev
        have hd10 : d < 10 := natDigitsRevFuel_lt10 b b d (by rw [hdig]; simp)
        have : d = 0 := digitChar_inj d hd10 0 (by decide) (by simpa [digitChar] using hrev.1)
        rw [hdig] at hval
        simp [valN, this] at hval
        omega
      | cons d2 ds2 => simp at hrev
  · exfalso
    rw [if_neg ha, if_pos hb] at h
    have hd := strMk_inj (show (⟨_⟩ : String) = ⟨['0']⟩ from h)
    have hrev : (natDigitsRevFuel a a).map digitChar = ['0'] := by
      have := congrArg List.reverse hd
      simpa using this
    have hval : valN (natDigitsRevFuel a a) = a := valN_natDigitsRevFuel a a le_rfl
    rcases hdig : natDigitsRevFuel a a with _ | ⟨d, ds⟩
    · rw [hdig] at hval; simp [valN] at hval; omega
    · rw [hdig] at hrev
      cases ds with
      | nil =>
        simp only [List.map_cons, List.map_nil, List.cons.injEq] at hrev
        have hd10 : d < 10 := natDigitsRevFuel_lt10 a a d (by rw [hdig]; simp)
        have : d = 0 := digitChar_inj d hd10 0 (by decide) (by simpa [digitChar] using hrev.1)
        rw [hdig] at hval
        simp [valN, this] at hval
        omega
      | cons d2 ds2 => simp at hrev
  · rw [if_neg ha, if_neg hb] at h
    have hd := strMk_inj h
    have hrev := congrArg List.reverse hd
    simp only [List.reverse_reverse] at hrev
    have hda : ∀ d ∈ natDigitsRevFuel a a, d < 10 := fun d hd => natDigitsRevFuel_lt10 a a d hd
    have hdb : ∀ d ∈ natDigitsRevFuel b b, d < 10 := fun d hd => natDigitsRevFuel_lt10 b b d hd
    have heq := map_digitChar_inj _ _ hda hdb hrev
    have hva := valN_natDigitsRevFuel a a le_rfl
    have hvb := valN_natDigitsRevFuel b b le_rfl
    rw [← hva, ← hvb, heq]

theorem slotId_inj {i j : Nat} (h : slotId i = slotId j) : i = j := by
  unfold slotId at h
  have hd : ("slot_" ++ natStr i).data = ("slot_" ++ natStr j).data := congrArg String.data h
  have hi : ("slot_" ++ natStr i).data = "slot_".data ++ (natStr i).data := rfl
  have hj : ("slot_" ++ natStr j).data = "slot_".data ++ (natStr j).data := rfl
  rw [hi, hj] at hd
  have := List.append_cancel_left hd
  exact natStr_inj (by cases hni : natStr i; cases hnj : natStr j; simp_all)

theorem slotId_data (i : Nat) :
    (slotId i).data = 's' :: 'l' :: 'o' :: 't' :: '_' :: (natStr i).data := rfl

/-- A slot id is never an all-digits string. -/
theorem slotId_not_digits (i : Nat) (msg : String)
    (hmsg : digitsOnly msg = true) : msg ≠ slotId i := by
  intro h
  have hd : msg.data = (slotId i).data := congrArg String.data h
  rw [slotId_data] at hd
  unfold digitsOnly at hmsg
  rw [hd] at hmsg
  simp [List.all_cons] at hmsg

theorem lookup_buildPairsFrom (cs : List String) :
    ∀ (k i : Nat) (h : i < cs.length),
      lookupA (buildPairsFrom k cs) (slotId (k + i)) = some (cs.get ⟨i, h⟩) := by
  induction cs with
  | nil => intro k i h; simp at h
  | cons c rest ih =>
    intro k i h
    cases i with
    | zero =>
      simp only [buildPairsFrom, lookupA, Nat.add_zero]
      rw [if_pos (by simp)]
      rfl
    | succ j =>
      simp only [buildPairsFrom, lookupA]
      rw [if_neg]
      · have : k + (j + 1) = (k + 1) + j := by omega
        rw [this]
        exact ih (k + 1) j (by simpa using h)
      · intro hbeq
        have : slotId k = slotId (k + (j + 1)) := eq_of_beq hbeq
        have := slotId_inj this
        omega

theorem lookup_buildPairsFrom_digits (cs : List String) :
    ∀ (k : Nat) (msg : String), digitsOnly msg = true →
      lookupA (buildPairsFrom k cs) msg = none := by
  induction cs with
  | nil => intro k msg _; rfl
  | cons c rest ih =>
    intro k msg hmsg
    simp only [buildPairsFrom, lookupA]
    rw [if_neg]
    · exact ih (k + 1) msg hmsg
    · intro hbeq
      exact slotId_not_digits k msg hmsg (eq_of_beq hbeq).symm

theorem lookup_buildPairsFrom_nokey (cs : List String) :
    ∀ (k : Nat) (key : String), (∀ j, j < cs.length → key ≠ slotId (k + j)) →
      lookupA (buildPairsFrom k cs) key = none := by
  induction cs with
  | nil => intro k key _; rfl
  | cons c rest ih =>
    intro k key hkey
    simp only [buildPairsFrom, lookupA]
    rw [if_neg]
    · refine ih (k + 1) key (fun j hj hcontra => ?_)
      refine hkey (j + 1) (by simpa using hj) ?_
      rw [show k + (j + 1) = (k + 1) + j by omega]
      exact hcontra
    · intro hbeq
      exact hkey 0 (by simp) ((eq_of_beq hbeq).symm.trans (by rw [Nat.add_zero]))

/-- C5 counterexample: the claimed round trip fails for the catalog built
from the single label `"2"`.  Resolving that catalog by its own exact label
`"2"` hits the numeric-index branch first (the reply is all digits), indexes
`currentSlots[1]`, which does not exist, and yields no selection instead of
the label itself. -/
theorem c5_roundtrip_counterexample :
    resolveChosen (catalogMeta ["2"]) "2" = none ∧ "2" ∈ ["2"] := by decide

/-- C5 amended: on a catalog built from labels `L`, resolving by the
generated id `slot_i` returns the i-th label whenever that label is truthy
(non-empty), and resolving by the 1-based numeric index always returns it;
resolving by the exact label returns it provided the label is not itself an
all-digits string (which would be routed to the numeric-index branch first)
and does not collide with a generated catalog id; the resolution order is
id, then numeric index, then exact label, then normalized label, and a
reply at the time-selection step that resolves to nothing produces the
invalid-selection re-prompt with the session unchanged. -/
theorem c5_roundtrip_amended (L : List String) (i : Nat) (h : i < L.length) :
    (L.get ⟨i, h⟩ ≠ "" →
       resolveChosen (catalogMeta L) (slotId i) = some (L.get ⟨i, h⟩)) ∧
    (∀ msg, digitsOnly msg = true → parseNat msg = i + 1 →
       resolveChosen (catalogMeta L) msg = some (L.get ⟨i, h⟩)) ∧
    (digitsOnly (L.get ⟨i, h⟩) = false →
     (∀ j, j < L.length → L.get ⟨i, h⟩ ≠ slotId j) →
       resolveChosen (catalogMeta L) (L.get ⟨i, h⟩) = some (L.get ⟨i, h⟩)) ∧
    (∀ (env : WEnv) (b : Booking) (msg sender : String),
       ¬(msg = "tod_morning" ∨ msg = "tod_afternoon" ∨ msg = "tod_evening") →
       truthyChosen (resolveChosen b.meta msg) = none →
       stepTimeSel env b msg sender = ⟨some b, [.text sender invalidSlotText]⟩) := by
  refine ⟨?_, ?_, ?_, ?_⟩
  · intro hne
    have hlook : lookupA (buildPairs L) (slotId i) = some (L.get ⟨i, h⟩) := by
      have := lookup_buildPairsFrom L 0 i h
      simpa using this
    simp only [resolveChosen, catalogMeta, Option.bind, truthyLookup, hlook]
    rw [if_neg hne]
  · intro msg hdig hparse
    have hlook : lookupA (buildPairs L) msg = none :=
      lookup_buildPairsFrom_digits L 0 msg hdig
    simp only [resolveChosen, catalogMeta, Option.bind, truthyLookup, hlook]
    rw [if_pos ⟨hdig, rfl⟩, hparse]
    simp [List.get?_eq_get h]
  · intro hdig hnid
    have hlook : lookupA (buildPairs L) (L.get ⟨i, h⟩) = none := by
      refine lookup_buildPairsFrom_nokey L 0 (L.get ⟨i, h⟩) (fun j hj => ?_)
      simpa using hnid j hj
    have hc : L.contains (L.get ⟨i, h⟩) = true :=
      List.elem_eq_true_of_mem (List.get_mem L i h)
    simp only [resolveChosen, catalogMeta, Option.bind, truthyLookup, hlook,
      Option.getD_some]
    rw [if_neg (fun hcontra => by
      simp only [List.get_eq_getElem] at hdig
      simp [hdig] at hcontra), if_pos hc]
  · intro env b msg sender htod hres
    unfold stepTimeSel
    rw [if_neg htod, hres]

/-- C5 witness: on the catalog built from two time labels, the id `slot_1`,
the index reply `"2"`, and the exact label all resolve to the second label,
and an unresolvable reply at the time-selection step re-prompts with the
session unchanged. -/
theorem c5_roundtrip_witness :
    resolveChosen (catalogMeta ["10:00 - 11:00", "12:30 - 13:30"]) (slotId 1) =
      some "12:30 - 13:30" ∧
    resolveChosen (catalogMeta ["10:00 - 11:00", "12:30 - 13:30"]) "2" =
      some "12:30 - 13:30" ∧
    resolveChosen (catalogMeta ["10:00 - 11:00", "12:30 - 13:30"]) "12:30 - 13:30" =
      some "12:30 - 13:30" ∧
    stepTimeSel {}
      { phone := "p"
        step := "time_selection"
        meta := catalogMeta ["10:00 - 11:00", "12:30 - 13:30"] } "zzz" "p" =
      ⟨some
        { phone := "p"
          step := "time_selection"
          meta := catalogMeta ["10:00 - 11:00", "12:30 - 13:30"] },
       [.text "p" invalidSlotText]⟩ :=
  ⟨(c5_roundtrip_amended ["10:00 - 11:00", "12:30 - 13:30"] 1 (by decide)).1 (by decide),
   (c5_roundtrip_amended ["10:00 - 11:00", "12:30 - 13:30"] 1 (by decide)).2.1 "2"
     (by decide) (by decide),
   (c5_roundtrip_amended ["10:00 - 11:00", "12:30 - 13:30"] 1 (by decide)).2.2.1
     (by decide) (by decide),
   (c5_roundtrip_amended ["10:00 - 11:00", "12:30 - 13:30"] 1 (by decide)).2.2.2
     {} _ "zzz" "p" (by decide) (by decide)⟩

/-! ### Fixed points of `normalizeSlot`

The output of `normalizeSlot` has single spaces for whitespace, no dash
variants, and no leading or trailing whitespace; on such strings the
normalizer is the identity, so it is idempotent.
-/

theorem wsOkAfter_mono {l : List Char} (h : wsOkAfter true l = true) :
    wsOkAfter false l = true := by
  cases l with
  | nil => rfl
  | cons c cs =>
    simp only [wsOkAfter, Bool.and_eq_true] at h ⊢
    obtain ⟨h1, h2⟩ := h
    have hw : isWSp c = false := by
      cases hcw : isWSp c
      · rfl
      · rw [hcw] at h1; simp at h1
    rw [hw] at h2 ⊢
    exact ⟨by simp, h2⟩

theorem collapseWS_wsOkAfter : ∀ (l : List Char) (b : Bool),
    wsOkAfter b (collapseWS b l) = true := by
  intro l
  induction l with
  | nil => intro b; rfl
  | cons c cs ih =>
    intro b
    by_cases hw : isWSp c = true
    · cases b with
      | true => simpa [collapseWS, hw] using ih true
      | false =>
        have hsp : isWSp ' ' = true := rfl
        simp [collapseWS, hw, wsOkAfter, hsp, ih true]
    · simp [collapseWS, hw, wsOkAfter, ih false]

theorem collapseWS_spaceOK : ∀ (l : List Char) (b : Bool),
    (collapseWS b l).all (fun c => !isWSp c || c == ' ') = true := by
  intro l
  induction l with
  | nil => intro b; rfl
  | cons c cs ih =>
    intro b
    by_cases hw : isWSp c = true
    · cases b with
      | true => simpa [collapseWS, hw] using ih true
      | false => simp [collapseWS, hw, ih true]
    · simp [collapseWS, hw, ih false]

theorem collapseWS_fix : ∀ (l : List Char) (b : Bool),
    wsOkAfter b l = true → l.all (fun c => !isWSp c || c == ' ') = true →
    collapseWS b l = l := by
  intro l
  induction l with
  | nil => intros; rfl
  | cons c cs ih =>
    intro b hok hall
    simp only [wsOkAfter, Bool.and_eq_true] at hok
    simp only [List.all_cons, Bool.and_eq_true] at hall
    obtain ⟨hok1, hok2⟩ := hok
    obtain ⟨hall1, hall2⟩ := hall
    by_cases hw : isWSp c = true
    · have hb : b = false := by
        cases hbv : b
        · rfl
        · rw [hbv, hw] at hok1; simp at hok1
      have hsp : c = ' ' := by
        rw [hw] at hall1; simpa using hall1
      subst hb
      subst hsp
      rw [hw] at hok2
      have htail : collapseWS true cs = cs := ih true hok2 hall2
      simp [collapseWS, hw, htail]
    · have hwf : isWSp c = false := by simpa using hw
      rw [hwf] at hok2
      have htail : collapseWS false cs = cs := ih false hok2 hall2
      simp [collapseWS, hwf, htail]

theorem isDash_not_ws {c : Char} (h : isDashVariant c = true) : isWSp c = false := by
  unfold isDashVariant at h
  simp only [Bool.or_eq_true] at h
  rcases h with (h | h) | h <;> rw [eq_of_beq h] <;> rfl

theorem dashify_char_ws (c : Char) :
    isWSp (if isDashVariant c then '-' else c) = isWSp c := by
  by_cases h : isDashVariant c = true
  · rw [if_pos h, isDash_not_ws h]; rfl
  · rw [if_neg (by simp [h])]

theorem dashify_wsOkAfter : ∀ (l : List Char) (b : Bool),
    wsOkAfter b (dashify l) = wsOkAfter b l := by
  intro l
  induction l with
  | nil => intro b; rfl
  | cons c cs ih =>
    intro b
    simp only [dashify, List.map_cons] at ih ⊢
    simp only [wsOkAfter, dashify_char_ws c, ih (isWSp c)]

theorem dashify_goodChar : ∀ l : List Char,
    l.all (fun c => !isWSp c || c == ' ') = true → (dashify l).all goodChar = true := by
  intro l
  induction l with
  | nil => intro _; rfl
  | cons c cs ih =>
    intro h
    simp only [List.all_cons, Bool.and_eq_true] at h
    simp only [dashify, List.map_cons, List.all_cons, Bool.and_eq_true]
    refine ⟨?_, by simpa [dashify] using ih h.2⟩
    by_cases hd : isDashVariant c = true
    · rw [if_pos hd]; decide
    · rw [if_neg (by simp [hd])]
      simp only [goodChar, Bool.and_eq_true]
      exact ⟨h.1, by simp [hd]⟩

theorem dashify_fix : ∀ l : List Char,
    l.all (fun c => !isDashVariant c) = true → dashify l = l := by
  intro l
  induction l with
  | nil => intro _; rfl
  | cons c cs ih =>
    intro h
    simp only [List.all_cons, Bool.and_eq_true] at h
    have hc : isDashVariant c = false := by simpa using h.1
    simp only [dashify, List.map_cons]
    rw [if_neg (by simp [hc])]
    simpa [dashify] using ih h.2

theorem dropWhileWS_wsOkAfter : ∀ l : List Char, wsOkAfter false l = true →
    wsOkAfter true (l.dropWhile (fun c => isWSp c)) = true := by
  intro l
  induction l with
  | nil => intro _; rfl
  | cons c cs ih =>
    intro h
    simp only [wsOkAfter, Bool.and_eq_true] at h
    by_cases hw : isWSp c = true
    · rw [List.dropWhile_cons_of_pos (by simpa using hw)]
      have h2 := h.2
      rw [hw] at h2
      exact ih (wsOkAfter_mono h2)
    · rw [List.dropWhile_cons_of_neg (by simpa using hw)]
      have hwf : isWSp c = false := by simpa using hw
      have h2 := h.2
      rw [hwf] at h2
      simp only [wsOkAfter, hwf, Bool.and_eq_true]
      exact ⟨by simp, h2⟩

theorem all_dropWhile {p q : Char → Bool} : ∀ l : List Char,
    l.all q = true → (l.dropWhile p).all q = true := by
  intro l
  induction l with
  | nil => intro _; rfl
  | cons c cs ih =>
    intro h
    simp only [List.all_cons, Bool.and_eq_true] at h
    by_cases hp : p c = true
    · rw [List.dropWhile_cons_of_pos (by simpa using hp)]
      exact ih h.2
    · rw [List.dropWhile_cons_of_neg (by simpa using hp)]
      simp [h.1, h.2]

theorem dropWhileWS_fix : ∀ l : List Char, wsOkAfter true l = true →
    l.dropWhile (fun c => isWSp c) = l := by
  intro l
  cases l with
  | nil => intro _; rfl
  | cons c cs =>
    intro h
    simp only [wsOkAfter, Bool.and_eq_true] at h
    have hw : isWSp c = false := by
      have := h.1
      cases hcw : isWSp c
      · rfl
      · rw [hcw] at this; simp at this
    rw [List.dropWhile_cons_of_neg (by simpa using hw)]

theorem dropTrailWS_cons (c : Char) (cs : List Char) :
    dropTrailWS (c :: cs) =
      match dropTrailWS cs with
      | [] => if isWSp c then [] else [c]
      | rest => c :: rest := rfl

theorem dropTrailWS_wsOkAfter : ∀ (l : List Char) (b : Bool), wsOkAfter b l = true →
    wsOkAfter b (dropTrailWS l) = true := by
  intro l
  induction l with
  | nil => intros; rfl
  | cons c cs ih =>
    intro b h
    simp only [wsOkAfter, Bool.and_eq_true] at h
    rw [dropTrailWS_cons]
    cases hrec : dropTrailWS cs with
    | nil =>
      by_cases hw : isWSp c = true
      · simp [hw, wsOkAfter]
      · simp [hw, wsOkAfter, h.1]
    | cons r rs =>
      have hih := ih (isWSp c) h.2
      rw [hrec] at hih
      simp only [wsOkAfter, Bool.and_eq_true] at hih ⊢
      exact ⟨h.1, hih.1, hih.2⟩

theorem all_dropTrailWS {q : Char → Bool} : ∀ l : List Char,
    l.all q = true → (dropTrailWS l).all q = true := by
  intro l
  induction l with
  | nil => intro _; rfl
  | cons c cs ih =>
    intro h
    simp only [List.all_cons, Bool.and_eq_true] at h
    rw [dropTrailWS_cons]
    cases hrec : dropTrailWS cs with
    | nil =>
      by_cases hw : isWSp c = true
      · simp [hw]
      · simp [hw, h.1]
    | cons r rs =>
      have hih := ih h.2
      rw [hrec] at hih
      simp only [List.all_cons, Bool.and_eq_true] at hih ⊢
      exact ⟨h.1, hih.1, hih.2⟩

theorem dropTrailWS_noTrail : ∀ l : List Char, noTrailWS (dropTrailWS l) = true := by
  intro l
  induction l with
  | nil => rfl
  | cons c cs ih =>
    rw [dropTrailWS_cons]
    cases hrec : dropTrailWS cs with
    | nil =>
      by_cases hw : isWSp c = true
      · simp [hw, noTrailWS]
      · simp [hw, noTrailWS]
    | cons r rs =>
      show noTrailWS (c :: r :: rs) = true
      rw [show noTrailWS (c :: r :: rs) = noTrailWS (r :: rs) from rfl, ← hrec]
      exact ih

theorem dropTrailWS_fix : ∀ l : List Char, noTrailWS l = true → dropTrailWS l = l := by
  intro l
  induction l with
  | nil => intro _; rfl
  | cons c cs ih =>
    intro h
    cases cs with
    | nil =>
      have hw : isWSp c = false := by simpa [noTrailWS] using h
      simp [dropTrailWS, hw]
    | cons c2 cs2 =>
      have htail : noTrailWS (c2 :: cs2) = true := by
        simpa [noTrailWS] using h
      have hrec : dropTrailWS (c2 :: cs2) = c2 :: cs2 := ih htail
      rw [dropTrailWS_cons, hrec]

theorem all_goodChar_space {l : List Char} (h : l.all goodChar = true) :
    l.all (fun c => !isWSp c || c == ' ') = true := by
  rw [List.all_eq_true] at h ⊢
  intro c hc
  have := h c hc
  simp only [goodChar, Bool.and_eq_true] at this
  exact this.1

theorem all_goodChar_nodash {l : List Char} (h : l.all goodChar = true) :
    l.all (fun c => !isDashVariant c) = true := by
  rw [List.all_eq_true] at h ⊢
  intro c hc
  have := h c hc
  simp only [goodChar, Bool.and_eq_true] at this
  exact this.2

theorem canonicalChars_normalizeSlot (s : String) :
    canonicalChars (normalizeSlot s).data = true := by
  show canonicalChars (trimChars (dashify (collapseWS false s.data))) = true
  unfold trimChars canonicalChars
  have h1 : wsOkAfter false (dashify (collapseWS false s.data)) = true := by
    rw [dashify_wsOkAfter]
    exact collapseWS_wsOkAfter s.data false
  have h2 : (dashify (collapseWS false s.data)).all goodChar = true :=
    dashify_goodChar _ (collapseWS_spaceOK s.data false)
  have h3 := dropWhileWS_wsOkAfter _ h1
  have h4 := all_dropWhile (p := fun c => isWSp c) _ h2
  simp only [Bool.and_eq_true]
  exact ⟨⟨dropTrailWS_wsOkAfter _ true h3, all_dropTrailWS _ h4⟩, dropTrailWS_noTrail _⟩

theorem normalizeSlot_fix {s : String} (h : canonicalChars s.data = true) :
    normalizeSlot s = s := by
  unfold canonicalChars at h
  simp only [Bool.and_eq_true] at h
  obtain ⟨⟨hok, hall⟩, htrail⟩ := h
  unfold normalizeSlot trimChars
  rw [collapseWS_fix s.data false (wsOkAfter_mono hok) (all_goodChar_space hall)]
  rw [dashify_fix s.data (all_goodChar_nodash hall)]
  rw [dropWhileWS_fix s.data hok, dropTrailWS_fix s.data htrail]

theorem normalizeSlot_idem (s : String) :
    normalizeSlot (normalizeSlot s) = normalizeSlot s :=
  normalizeSlot_fix (canonicalChars_normalizeSlot s)

/-! ### Deduplication -/

theorem mem_dedupAux : ∀ (l seen : List String) (a : String),
    a ∈ dedupAux seen l ↔ a ∈ l ∧ a ∉ seen := by
  intro l
  induction l with
  | nil => intro seen a; simp [dedupAux]
  | cons s rest ih =>
    intro seen a
    simp only [dedupAux]
    by_cases hs : seen.contains s = true
    · rw [if_pos hs, ih]
      constructor
      · rintro ⟨ha, hn⟩
        exact ⟨List.mem_cons_of_mem s ha, hn⟩
      · rintro ⟨ha, hn⟩
        rcases List.mem_cons.mp ha with rfl | ha
        · exact absurd (List.mem_of_elem_eq_true hs) hn
        · exact ⟨ha, hn⟩
    · rw [if_neg hs]
      have hsn : s ∉ seen := fun hm => hs (List.elem_eq_true_of_mem hm)
      simp only [List.mem_cons, ih]
      constructor
      · rintro (rfl | ⟨ha, hn⟩)
        · exact ⟨Or.inl rfl, hsn⟩
        · exact ⟨Or.inr ha, fun hm => hn (Or.inr hm)⟩
      · rintro ⟨rfl | ha, hn⟩
        · exact Or.inl rfl
        · by_cases has : a = s
          · exact Or.inl has
          · exact Or.inr ⟨ha, fun hm => hm.elim has hn⟩

theorem dedupAux_nodup : ∀ (l seen : List String), (dedupAux seen l).Nodup := by
  intro l
  induction l with
  | nil => intro seen; simp [dedupAux]
  | cons s rest ih =>
    intro seen
    simp only [dedupAux]
    by_cases hs : seen.contains s = true
    · rw [if_pos hs]; exact ih seen
    · rw [if_neg hs]
      refine List.nodup_cons.mpr ⟨fun hm => ?_, ih (s :: seen)⟩
      exact ((mem_dedupAux rest (s :: seen) s).mp hm).2 (by simp)

theorem dedupFirst_nodup (l : List String) : (dedupFirst l).Nodup :=
  dedupAux_nodup l []

theorem mem_dedupFirst {l : List String} {a : String} :
    a ∈ dedupFirst l ↔ a ∈ l := by
  simp [dedupFirst, mem_dedupAux]

theorem dedupFirst_contains {l : List String} {a : String} :
    (dedupFirst l).contains a = l.contains a := by
  show List.elem a (dedupFirst l) = List.elem a l
  by_cases h : a ∈ l
  · rw [List.elem_eq_true_of_mem h, List.elem_eq_true_of_mem (mem_dedupFirst.mpr h)]
  · cases hc : List.elem a (dedupFirst l)
    · cases hc2 : List.elem a l
      · rfl
      · exact absurd (List.mem_of_elem_eq_true hc2) h
    · exact absurd (List.mem_of_elem_eq_true hc)
        (fun hm => h (mem_dedupFirst.mp hm))

theorem dedupFirst_nil_iff {l : List String} : dedupFirst l = [] ↔ l = [] := by
  cases l with
  | nil => simp [dedupFirst, dedupAux]
  | cons a rest =>
    simp only [dedupFirst, dedupAux]
    rw [if_neg (by simp)]
    simp

/-- The labels of any catalog built by the handler (first-occurrence
deduplication of normalized labels) stay pairwise distinct under a second
normalization. -/
theorem catalog_labels_nodup (raw : List String) :
    ((dedupFirst (raw.map normalizeSlot)).map normalizeSlot).Nodup := by
  have hfix : ∀ a ∈ dedupFirst (raw.map normalizeSlot), normalizeSlot a = a := by
    intro a ha
    rcases List.mem_map.mp (mem_dedupFirst.mp ha) with ⟨y, _, rfl⟩
    exact normalizeSlot_idem y
  rw [List.map_congr_left hfix]
  simpa using dedupFirst_nodup (raw.map normalizeSlot)

/-! ### Per-step transition facts

What each `case` of the switch can and cannot change: the dedupe marker is
never touched by step logic, `paid` is only set at the payment commit, and
the catalog consistency invariant is preserved.
-/

theorem stepSport_facts (b : Booking) (msg ml s : String) :
    ∀ b2, (stepSport b msg ml s).booking = some b2 →
      b2.meta = b.meta ∧ b2.paid = b.paid ∧ b2.time_slot = b.time_slot := by
  intro b2 h
  unfold stepSport at h
  split at h <;>
  · simp only [Option.some.injEq] at h
    subst h
    simp

theorem stepCentre_facts (b : Booking) (msg s : String) :
    ∀ b2, (stepCentre b msg s).booking = some b2 →
      b2.meta = b.meta ∧ b2.paid = b.paid ∧ b2.time_slot = b.time_slot := by
  intro b2 h
  unfold stepCentre at h
  split at h <;>
  · simp only [Option.some.injEq] at h
    subst h
    simp

theorem stepPlayers_facts (b : Booking) (msg s : String) :
    ∀ b2, (stepPlayers b msg s).booking = some b2 →
      b2.meta = b.meta ∧ b2.paid = b.paid ∧ b2.time_slot = b.time_slot := by
  intro b2 h
  unfold stepPlayers at h
  split at h <;>
  · simp only [Option.some.injEq] at h
    subst h
    simp

theorem stepAddons_facts (b : Booking) (msg s : String) :
    ∀ b2, (stepAddons b msg s).booking = some b2 →
      b2.meta = b.meta ∧ b2.paid = b.paid ∧ b2.time_slot = b.time_slot := by
  intro b2 h
  unfold stepAddons at h
  split at h <;>
  · simp only [Option.some.injEq] at h
    subst h
    simp

theorem stepContact_facts (env : WEnv) (b : Booking) (msg s : String) :
    ∀ b2, (stepContact env b msg s).booking = some b2 →
      b2.meta = b.meta ∧ b2.paid = b.paid ∧ b2.time_slot = b.time_slot := by
  intro b2 h
  unfold stepContact at h
  split at h <;>
  · simp only [Option.some.injEq] at h
    subst h
    simp

theorem stepDefault_facts (b : Booking) (s : String) :
    ∀ b2, (stepDefault b s).booking = some b2 →
      b2.meta = b.meta ∧ b2.paid = b.paid ∧ b2.time_slot = b.time_slot := by
  intro b2 h
  unfold stepDefault at h
  simp only [Option.some.injEq] at h
  subst h
  simp

theorem stepDateSel_facts (env : WEnv) (b : Booking) (msg s : String) :
    ∀ b2, (stepDateSel env b msg s).booking = some b2 →
      b2.meta.lastMessageId = b.meta.lastMessageId ∧
      b2.meta.slotMap = b.meta.slotMap ∧
      b2.meta.currentSlots = b.meta.currentSlots ∧
      b2.paid = b.paid := by
  intro b2 h
  unfold stepDateSel at h
  repeat' split at h
  all_goals simp only [Option.some.injEq] at h
  all_goals subst h
  all_goals simp

theorem stepTimeSel_facts (env : WEnv) (b : Booking) (msg s : String) :
    ∀ b2, (stepTimeSel env b msg s).booking = some b2 →
      b2.meta.lastMessageId = b.meta.lastMessageId ∧
      b2.paid = b.paid ∧
      (catalogOK b.meta → catalogOK b2.meta) := by
  intro b2 h
  simp only [stepTimeSel] at h
  split at h
  · -- a time-of-day bucket was chosen
    split at h
    · -- graceful widening build from the full day
      simp only [Option.some.injEq] at h
      subst h
      refine ⟨rfl, rfl, fun _ => ?_⟩
      simp only [catalogOK]
      exact ⟨trivial, catalog_labels_nodup env.avail⟩
    · split at h
      · -- no availability at all: session unchanged
        simp only [Option.some.injEq] at h
        subst h
        exact ⟨rfl, rfl, fun hok => hok⟩
      · -- template-matched build, buttons or list
        split at h <;>
        · simp only [Option.some.injEq] at h
          subst h
          refine ⟨rfl, rfl, fun _ => ?_⟩
          simp only [catalogOK]
          exact ⟨trivial, catalog_labels_nodup _⟩
  · -- a concrete slot reply
    split at h
    · -- unresolvable reply: session unchanged
      simp only [Option.some.injEq] at h
      subst h
      exact ⟨rfl, rfl, fun hok => hok⟩
    · split at h
      · -- conflict: catalog rebuilt as a filter of the current one
        simp only [Option.some.injEq] at h
        subst h
        refine ⟨rfl, rfl, fun hok => ?_⟩
        simp only [catalogOK] at hok ⊢
        refine ⟨trivial, ?_⟩
        rcases hsm : b.meta.slotMap with - | sm <;>
          rcases hcs : b.meta.currentSlots with - | cs <;>
          rw [hsm, hcs] at hok
        · simp [Option.getD]
        · exact absurd hok (by simp)
        · exact absurd hok (by simp)
        · simp only [Option.getD_some]
          exact hok.2.sublist (List.Sublist.map _ (List.filter_sublist cs))
      · -- slot still available: advance with meta unchanged
        simp only [Option.some.injEq] at h
        subst h
        exact ⟨rfl, rfl, fun hok => hok⟩

theorem stepPayment_facts (env : WEnv) (b : Booking) (msg ml s : String) :
    ∀ b2, (stepPayment env b msg ml s).booking = some b2 →
      b2.meta = b.meta ∧
      (b2.paid = b.paid ∨
        (∃ t, b.time_slot = some t ∧ env.avail.contains t = true ∧
          b2.paid = true ∧ b2.step = "completed" ∧
          (msg = "payment_done" ∨ ml = "paid" ∨ ml = "done"))) := by
  intro b2 h
  simp only [stepPayment] at h
  split at h
  · rename_i hdone
    split at h
    · -- recheck failed: conflict path, paid unchanged
      simp only [Option.some.injEq] at h
      subst h
      exact ⟨rfl, Or.inl rfl⟩
    · -- recheck succeeded: commit
      rename_i hstill
      simp only [Option.some.injEq] at h
      subst h
      rcases hts : b.time_slot with - | t
      · rw [hts] at hstill; simp at hstill
      · rw [hts] at hstill
        refine ⟨by split <;> rfl, Or.inr ⟨t, rfl, by simpa using hstill, ?_, ?_, hdone⟩⟩
        · rfl
        · rfl
  · split at h
    · simp at h
    · simp only [Option.some.injEq] at h
      subst h
      exact ⟨rfl, Or.inl rfl⟩

/-! ### Dispatcher and whole-delivery facts -/

theorem catalogOK_congr {m1 m2 : BMeta} (hs : m1.slotMap = m2.slotMap)
    (hc : m1.currentSlots = m2.currentSlots) : catalogOK m1 ↔ catalogOK m2 := by
  unfold catalogOK
  rw [hs, hc]

theorem contains_eq_false_of_not_mem {l : List String} {a : String} (h : a ∉ l) :
    l.contains a = false := by
  cases hc : l.contains a
  · rfl
  · exact absurd (List.mem_of_elem_eq_true hc) h

theorem recordId_fields (b : Booking) (m : InMessage) :
    (recordId b m).phone = b.phone ∧ (recordId b m).step = b.step ∧
    (recordId b m).date = b.date ∧ (recordId b m).time_slot = b.time_slot ∧
    (recordId b m).paid = b.paid ∧
    (recordId b m).meta.slotMap = b.meta.slotMap ∧
    (recordId b m).meta.currentSlots = b.meta.currentSlots ∧
    (recordId b m).calendarEventId = b.calendarEventId := by
  unfold recordId
  split
  · split <;> simp
  · simp

theorem recordId_lastMessageId (b : Booking) (m : InMessage) (i : String)
    (hid : m.id = some i) (hne : i ≠ "") :
    (recordId b m).meta.lastMessageId = some i := by
  simp only [recordId, hid]
  rw [if_neg hne]

theorem dispatchStep_facts (env : WEnv) (b : Booking) (msg ml s : String) :
    ∀ b2, (dispatchStep env b msg ml s).booking = some b2 →
      b2.meta.lastMessageId = b.meta.lastMessageId ∧
      (catalogOK b.meta → catalogOK b2.meta) ∧
      (b2.paid = b.paid ∨
        (b.step = "payment" ∧ ∃ t, b.time_slot = some t ∧ env.avail.contains t = true ∧
          b2.paid = true ∧ b2.step = "completed" ∧
          (msg = "payment_done" ∨ ml = "paid" ∨ ml = "done"))) := by
  intro b2 h
  unfold dispatchStep at h
  split at h
  · obtain ⟨hm, hp, -⟩ := stepSport_facts b msg ml s b2 h
    exact ⟨by rw [hm], fun hok => (catalogOK_congr (by rw [hm]) (by rw [hm])).mpr hok,
      Or.inl hp⟩
  · split at h
    · obtain ⟨hm, hp, -⟩ := stepCentre_facts b msg s b2 h
      exact ⟨by rw [hm], fun hok => (catalogOK_congr (by rw [hm]) (by rw [hm])).mpr hok,
        Or.inl hp⟩
    · split at h
      · obtain ⟨h1, h2, h3, hp⟩ := stepDateSel_facts env b msg s b2 h
        exact ⟨h1, fun hok => (catalogOK_congr h2 h3).mpr hok, Or.inl hp⟩
      · split at h
        · obtain ⟨h1, hp, hcat⟩ := stepTimeSel_facts env b msg s b2 h
          exact ⟨h1, hcat, Or.inl hp⟩
        · split at h
          · obtain ⟨hm, hp, -⟩ := stepPlayers_facts b msg s b2 h
            exact ⟨by rw [hm], fun hok => (catalogOK_congr (by rw [hm]) (by rw [hm])).mpr hok,
              Or.inl hp⟩
          · split at h
            · obtain ⟨hm, hp, -⟩ := stepAddons_facts b msg s b2 h
              exact ⟨by rw [hm], fun hok => (catalogOK_congr (by rw [hm]) (by rw [hm])).mpr hok,
                Or.inl hp⟩
            · split at h
              · obtain ⟨hm, hp, -⟩ := stepContact_facts env b msg s b2 h
                exact ⟨by rw [hm], fun hok => (catalogOK_congr (by rw [hm]) (by rw [hm])).mpr hok,
                  Or.inl hp⟩
              · split at h
                · rename_i hstep
                  obtain ⟨hm, hdisj⟩ := stepPayment_facts env b msg ml s b2 h
                  refine ⟨by rw [hm],
                    fun hok => (catalogOK_congr (by rw [hm]) (by rw [hm])).mpr hok, ?_⟩
                  rcases hdisj with hp | ⟨t, ht, ha, hp, hs2, hmsg⟩
                  · exact Or.inl hp
                  · exact Or.inr ⟨hstep, t, ht, ha, hp, hs2, hmsg⟩
                · obtain ⟨hm, hp, -⟩ := stepDefault_facts b s b2 h
                  exact ⟨by rw [hm],
                    fun hok => (catalogOK_congr (by rw [hm]) (by rw [hm])).mpr hok, Or.inl hp⟩

theorem handleMessage_run (env : WEnv) (b : Booking) (m : InMessage)
    (hc : hasContent m = true) (hd : isDup b m = false)
    (hx : lowerStr (canonicalMsg m) ≠ "exit")
    (hk : lowerStr (canonicalMsg m) ≠ "cancel") :
    handleMessage env (some b) m =
      dispatchStep env (recordId b m) (canonicalMsg m) (lowerStr (canonicalMsg m))
        m.sender := by
  unfold handleMessage
  rw [if_neg (by simp [hc])]
  show (if isDup b m = true then _ else _) = _
  rw [if_neg (by simp [hd])]
  rw [if_neg (fun hor => hor.elim hx hk)]

theorem handleMessage_dup (env : WEnv) (b : Booking) (m : InMessage)
    (hc : hasContent m = true) (hd : isDup b m = true) :
    handleMessage env (some b) m = ⟨some b, []⟩ := by
  unfold handleMessage
  rw [if_neg (by simp [hc])]
  show (if isDup b m = true then _ else _) = _
  rw [if_pos hd]

theorem handleMessage_cancel (env : WEnv) (b : Booking) (m : InMessage)
    (hc : hasContent m = true) (hd : isDup b m = false)
    (hcan : lowerStr (canonicalMsg m) = "exit" ∨ lowerStr (canonicalMsg m) = "cancel") :
    handleMessage env (some b) m = ⟨none, [.text m.sender cancelText]⟩ := by
  unfold handleMessage
  rw [if_neg (by simp [hc])]
  show (if isDup b m = true then _ else _) = _
  rw [if_neg (by simp [hd])]
  rw [if_pos hcan]

theorem handleMessage_nocontent (env : WEnv) (db : Option Booking) (m : InMessage)
    (hc : hasContent m = false) :
    handleMessage env db m = ⟨db, []⟩ := by
  unfold handleMessage
  rw [if_pos hc]

theorem handleMessage_facts (env : WEnv) (b : Booking) (m : InMessage) :
    ∀ b2, (handleMessage env (some b) m).booking = some b2 →
      (catalogOK b.meta → catalogOK b2.meta) ∧
      (b2.paid = b.paid ∨
        (b.step = "payment" ∧ ∃ t, b.time_slot = some t ∧ env.avail.contains t = true ∧
          b2.paid = true ∧ b2.step = "completed")) := by
  intro b2 h
  by_cases hc : hasContent m = true
  · by_cases hd : isDup b m = true
    · rw [handleMessage_dup env b m hc hd] at h
      simp only [Option.some.injEq] at h
      subst h
      exact ⟨fun hok => hok, Or.inl rfl⟩
    · have hdf : isDup b m = false := by simpa using hd
      by_cases hcan : lowerStr (canonicalMsg m) = "exit" ∨
          lowerStr (canonicalMsg m) = "cancel"
      · rw [handleMessage_cancel env b m hc hdf hcan] at h
        simp at h
      · rw [handleMessage_run env b m hc hdf
          (fun he => hcan (Or.inl he)) (fun he => hcan (Or.inr he))] at h
        obtain ⟨-, hcat, hdisj⟩ :=
          dispatchStep_facts env (recordId b m) (canonicalMsg m)
            (lowerStr (canonicalMsg m)) m.sender b2 h
        obtain ⟨-, hstep, -, hts, hpaid, hsm, hcs, -⟩ := recordId_fields b m
        refine ⟨fun hok => hcat ((catalogOK_congr hsm hcs).mpr hok), ?_⟩
        rcases hdisj with hp | ⟨hpay, t, ht, ha, hp, hs2, -⟩
        · exact Or.inl (hp.trans hpaid)
        · refine Or.inr ⟨?_, t, ?_, ha, hp, hs2⟩
          · rw [← hstep]; exact hpay
          · rw [← hts]; exact ht
  · have hcf : hasContent m = false := by simpa using hc
    rw [handleMessage_nocontent env (some b) m hcf] at h
    simp only [Option.some.injEq] at h
    subst h
    exact ⟨fun hok => hok, Or.inl rfl⟩

theorem handleMessage_recorded (env : WEnv) (b : Booking) (m : InMessage) (b2 : Booking)
    (i : String) (hid : m.id = some i) (hne : i ≠ "")
    (hc : hasContent m = true) (hd : isDup b m = false)
    (h : (handleMessage env (some b) m).booking = some b2) :
    b2.meta.lastMessageId = some i := by
  by_cases hcan : lowerStr (canonicalMsg m) = "exit" ∨ lowerStr (canonicalMsg m) = "cancel"
  · rw [handleMessage_cancel env b m hc hd hcan] at h
    simp at h
  · rw [handleMessage_run env b m hc hd
      (fun he => hcan (Or.inl he)) (fun he => hcan (Or.inr he))] at h
    obtain ⟨h1, -, -⟩ :=
      dispatchStep_facts env (recordId b m) (canonicalMsg m)
        (lowerStr (canonicalMsg m)) m.sender b2 h
    rw [h1, recordId_lastMessageId b m i hid hne]

/-- C10: every catalog the handler persists is consistent.  The invariant
`catalogOK` says the id map is exactly `slot_0 .. slot_(n-1)` paired in
order with `currentSlots` and the stored labels are pairwise distinct under
normalization; it holds of the initial (absent) catalog and is preserved by
every delivery, covering the widened full-day build, the template-matched
build, and the post-conflict rebuild. -/
theorem c10_catalog_invariant (env : WEnv) (b : Booking) (m : InMessage) (b2 : Booking)
    (hok : catalogOK b.meta)
    (h : (handleMessage env (some b) m).booking = some b2) :
    catalogOK b2.meta :=
  (handleMessage_facts env b m b2 h).1 hok

/-- C10 witness: a concrete evening-bucket delivery with duplicated external
labels builds the deduplicated one-entry catalog, which is consistent. -/
theorem c10_catalog_invariant_witness :
    catalogOK ({ phone := "911"
                 step := "time_selection"
                 date := some "2025-01-01" } : Booking).meta ∧
    (handleMessage { avail := ["18:00 - 19:00", "18:00 - 19:00"] }
      (some { phone := "911", step := "time_selection", date := some "2025-01-01" })
      { id := some "m1", buttonReply := some ("tod_evening", "Evening"),
        sender := "911" }).booking =
      some
        { phone := "911"
          step := "time_selection"
          date := some "2025-01-01"
          meta := { lastMessageId := some "m1"
                    slotMap := some [("slot_0", "18:00 - 19:00")]
                    currentSlots := some ["18:00 - 19:00"] } } ∧
    catalogOK ({ lastMessageId := some "m1"
                 slotMap := some [("slot_0", "18:00 - 19:00")]
                 currentSlots := some ["18:00 - 19:00"] } : BMeta) :=
  ⟨trivial, by decide,
   c10_catalog_invariant { avail := ["18:00 - 19:00", "18:00 - 19:00"] }
     { phone := "911", step := "time_selection", date := some "2025-01-01" }
     { id := some "m1", buttonReply := some ("tod_evening", "Evening"), sender := "911" }
     { phone := "911"
       step := "time_selection"
       date := some "2025-01-01"
       meta := { lastMessageId := some "m1"
                 slotMap := some [("slot_0", "18:00 - 19:00")]
                 currentSlots := some ["18:00 - 19:00"] } }
     trivial (by decide)⟩

/-- C2 counterexample: the Razorpay webhook commit path sets `paid := true`
and step `completed` with no availability recheck at all; here the external
availability is empty (the chosen slot is certainly gone) and the booking
still transitions to paid.  This falsifies the claim that no code path sets
`paid = true` without a preceding successful recheck. -/
theorem c2_paid_counterexample :
    (razorpayLinkPaid { avail := [] }
        (some { phone := "919"
                step := "payment"
                time_slot := some "18:00 - 19:00" })).booking.map Booking.paid =
      some true ∧
    (razorpayLinkPaid { avail := [] }
        (some { phone := "919"
                step := "payment"
                time_slot := some "18:00 - 19:00" })).booking.map Booking.step =
      some "completed" ∧
    ({ phone := "919"
       step := "payment"
       time_slot := some "18:00 - 19:00" } : Booking).paid = false ∧
    List.contains ([] : List String) "18:00 - 19:00" = false := by decide

/-- C2 amended: in the WhatsApp message handler, `paid` transitions from
false to true only at the payment-step commit, only when the final
availability recheck (a raw `includes` of the fetched labels) succeeds for
the stored slot, and that transition also moves the step to `completed`.
The Razorpay webhook handler, by contrast, marks the booking paid and
completed without any availability recheck. -/
theorem c2_paid_amended (env : WEnv) (b : Booking) (m : InMessage) (b2 : Booking)
    (h : (handleMessage env (some b) m).booking = some b2)
    (hfalse : b.paid = false) (htrue : b2.paid = true) :
    b.step = "payment" ∧ b2.step = "completed" ∧
    ∃ t, b.time_slot = some t ∧ env.avail.contains t = true := by
  obtain ⟨-, hdisj⟩ := handleMessage_facts env b m b2 h
  rcases hdisj with hp | ⟨hpay, t, ht, ha, -, hs2⟩
  · rw [hfalse] at hp
    rw [hp] at htrue
    cases htrue
  · exact ⟨hpay, hs2, t, ht, ha⟩


/-- C2 witness: a concrete `done` reply at the payment step with the slot
still listed by the availability query commits the booking; the amended
theorem applied to that run recovers the commit facts. -/
theorem c2_paid_amended_witness :
    (handleMessage { avail := ["18:00 - 19:00"] }
      (some { phone := "919", step := "payment", time_slot := some "18:00 - 19:00" })
      { id := some "m2", textBody := some "done", sender := "919" }).booking =
      some
        { phone := "919"
          step := "completed"
          time_slot := some "18:00 - 19:00"
          paid := true
          meta := { lastMessageId := some "m2" } } ∧
    ("payment" = "payment" ∧ "completed" = "completed" ∧
      ∃ t, (some "18:00 - 19:00" : Option String) = some t ∧
        List.contains ["18:00 - 19:00"] t = true) :=
  ⟨by decide,
   c2_paid_amended { avail := ["18:00 - 19:00"] }
     { phone := "919", step := "payment", time_slot := some "18:00 - 19:00" }
     { id := some "m2", textBody := some "done", sender := "919" }
     { phone := "919"
       step := "completed"
       time_slot := some "18:00 - 19:00"
       paid := true
       meta := { lastMessageId := some "m2" } }
     (by decide) rfl rfl⟩

/-- C3: idempotency of the dedupe guard.  A delivery whose non-empty id
equals the recorded `lastMessageId` leaves the session untouched and sends
nothing; when a first delivery with a non-empty id leaves a session behind,
any redelivery of the same message against that session changes nothing
and sends nothing, so the pair performs exactly the first delivery's state
transition and outbound messages; and a processed non-duplicate id is
recorded onto the session state that step processing produces. -/
theorem c3_idempotency (env env2 : WEnv) (b : Booking) (m : InMessage) :
    (∀ i, m.id = some i → i ≠ "" → b.meta.lastMessageId = some i →
       handleMessage env (some b) m = ⟨some b, []⟩) ∧
    (∀ i b1 out1, m.id = some i → i ≠ "" →
       handleMessage env (some b) m = ⟨some b1, out1⟩ →
       handleMessage env2 (some b1) m = ⟨some b1, []⟩) ∧
    (∀ i b1 out1, m.id = some i → i ≠ "" → hasContent m = true → isDup b m = false →
       handleMessage env (some b) m = ⟨some b1, out1⟩ →
       b1.meta.lastMessageId = some i) := by
  refine ⟨?_, ?_, ?_⟩
  · intro i hid hne hlast
    by_cases hc : hasContent m = true
    · refine handleMessage_dup env b m hc ?_
      simp only [isDup, hid, hlast]
      rw [if_neg hne]
      simp [hne]
    · exact handleMessage_nocontent env (some b) m (by simpa using hc)
  · intro i b1 out1 hid hne h
    by_cases hc : hasContent m = true
    · by_cases hd : isDup b m = true
      · rw [handleMessage_dup env b m hc hd] at h
        have hb : b = b1 := by
          have := congrArg HandlerResult.booking h
          simpa using this
        subst hb
        exact handleMessage_dup env2 b m hc hd
      · have hdf : isDup b m = false := by simpa using hd
        by_cases hcan : lowerStr (canonicalMsg m) = "exit" ∨
            lowerStr (canonicalMsg m) = "cancel"
        · rw [handleMessage_cancel env b m hc hdf hcan] at h
          have := congrArg HandlerResult.booking h
          simp at this
        · rw [handleMessage_run env b m hc hdf
            (fun he => hcan (Or.inl he)) (fun he => hcan (Or.inr he))] at h
          have hb1 : (dispatchStep env (recordId b m) (canonicalMsg m)
              (lowerStr (canonicalMsg m)) m.sender).booking = some b1 := by
            rw [h]
          have hrec : b1.meta.lastMessageId = some i := by
            obtain ⟨h1, -, -⟩ :=
              dispatchStep_facts env (recordId b m) (canonicalMsg m)
                (lowerStr (canonicalMsg m)) m.sender b1 hb1
            rw [h1, recordId_lastMessageId b m i hid hne]
          refine handleMessage_dup env2 b1 m hc ?_
          simp only [isDup, hid, hrec]
          rw [if_neg hne]
          simp [hne]
    · have hcf : hasContent m = false := by simpa using hc
      rw [handleMessage_nocontent env (some b) m hcf] at h
      have hb : b = b1 := by
        have := congrArg HandlerResult.booking h
        simpa using this
      subst hb
      exact handleMessage_nocontent env2 (some b) m hcf
  · intro i b1 out1 hid hne hc hd h
    exact handleMessage_recorded env b m b1 i hid hne hc hd (by rw [h])

/-- C3 witness: a session that already recorded the id `"wamid.1"` absorbs a
redelivery with that id untouched, and a fresh id gets processed once then
absorbed on its own redelivery. -/
theorem c3_idempotency_witness :
    handleMessage {}
      (some { phone := "91", step := "player_count",
              meta := { lastMessageId := some "wamid.1" } })
      { id := some "wamid.1", textBody := some "3", sender := "91" } =
      ⟨some { phone := "91", step := "player_count",
              meta := { lastMessageId := some "wamid.1" } }, []⟩ ∧
    handleMessage {}
      (some { phone := "91", step := "addons_selection", players := some 3,
              meta := { lastMessageId := some "wamid.2" } })
      { id := some "wamid.2", textBody := some "4", sender := "91" } =
      ⟨some { phone := "91", step := "addons_selection", players := some 3,
              meta := { lastMessageId := some "wamid.2" } }, []⟩ :=
  ⟨((c3_idempotency {} {}
      { phone := "91", step := "player_count",
        meta := { lastMessageId := some "wamid.1" } }
      { id := some "wamid.1", textBody := some "3", sender := "91" }).1
      "wamid.1" rfl (by decide) rfl),
   ((c3_idempotency {} {}
      { phone := "91", step := "addons_selection", players := some 3,
        meta := { lastMessageId := some "wamid.2" } }
      { id := some "wamid.2", textBody := some "4", sender := "91" }).1
      "wamid.2" rfl (by decide) rfl)⟩

/-- C9: the very first inbound message from an unseen identity is handled by
the session-creation branch, which sends the welcome prompt and returns
before the dedupe guard can record the message id, so the created session
has no recorded `lastMessageId`; a redelivery of that same message is then
processed again (it falls through to step logic and produces outbound
traffic) instead of being absorbed as a duplicate. -/
theorem c9_first_message_replay (env env2 : WEnv) (m : InMessage)
    (hc : hasContent m = true) :
    handleMessage env none m =
      ⟨some (newBooking m.sender), [.buttons m.sender welcomeText sportButtons]⟩ ∧
    (newBooking m.sender).meta.lastMessageId = none ∧
    (handleMessage env2 (some (newBooking m.sender)) m).out ≠ [] := by
  have hd : isDup (newBooking m.sender) m = false := by
    rcases hm : m.id with - | i
    · simp [isDup, hm]
    · simp only [isDup, hm]
      split
      · rfl
      · rfl
  refine ⟨?_, rfl, ?_⟩
  · unfold handleMessage
    rw [if_neg (by simp [hc])]
  · by_cases hcan : lowerStr (canonicalMsg m) = "exit" ∨
        lowerStr (canonicalMsg m) = "cancel"
    · rw [handleMessage_cancel env2 _ m hc hd hcan]
      simp
    · rw [handleMessage_run env2 _ m hc hd
        (fun he => hcan (Or.inl he)) (fun he => hcan (Or.inr he))]
      have hstep : (recordId (newBooking m.sender) m).step = "sport_selection" :=
        (recordId_fields (newBooking m.sender) m).2.1
      unfold dispatchStep
      rw [if_pos hstep]
      unfold stepSport
      split <;> simp

/-- C9 witness: a concrete first message, then its redelivery. -/
theorem c9_first_message_replay_witness :
    handleMessage {} none { id := some "m9", textBody := some "hello", sender := "91" } =
      ⟨some (newBooking "91"), [.buttons "91" welcomeText sportButtons]⟩ ∧
    (newBooking "91").meta.lastMessageId = none ∧
    (handleMessage {} (some (newBooking "91"))
      { id := some "m9", textBody := some "hello", sender := "91" }).out ≠ [] :=
  c9_first_message_replay {} {}
    { id := some "m9", textBody := some "hello", sender := "91" } (by decide)

/-- C7 counterexample: at the time-selection step with evening chosen and
external availability exactly `["18:00 - 19:00", "20:00-21:00"]`, the
catalog has one entry, not the claimed two.  The string intersection with
the evening template already matches `"18:00 - 19:00"`, so the
time-extraction fallback (the only mechanism that could also admit the
unspaced `"20:00-21:00"`) is skipped, and normalization does not equate the
unspaced label with the spaced template entry. -/
theorem c7_evening_counterexample :
    ((handleMessage { avail := ["18:00 - 19:00", "20:00-21:00"] }
      (some { phone := "911", step := "time_selection", date := some "2025-01-01" })
      { id := some "m7", buttonReply := some ("tod_evening", "Evening"),
        sender := "911" }).booking.map
        (fun bk => (bk.meta.currentSlots.getD []).length)) = some 1 ∧
    ((handleMessage { avail := ["18:00 - 19:00", "20:00-21:00"] }
      (some { phone := "911", step := "time_selection", date := some "2025-01-01" })
      { id := some "m7", buttonReply := some ("tod_evening", "Evening"),
        sender := "911" }).booking.map
        (fun bk => (bk.meta.currentSlots.getD []).length)) ≠ some 2 := by decide

/-- C7 amended: the same scenario yields a catalog of exactly one
normalized entry, `"18:00 - 19:00"`, and because one entry is at most
three, the offer is presented as a button set, not a list. -/
theorem c7_evening_amended :
    handleMessage { avail := ["18:00 - 19:00", "20:00-21:00"] }
      (some { phone := "911", step := "time_selection", date := some "2025-01-01" })
      { id := some "m7", buttonReply := some ("tod_evening", "Evening"),
        sender := "911" } =
      ⟨some
        { phone := "911"
          step := "time_selection"
          date := some "2025-01-01"
          meta := { lastMessageId := some "m7"
                    slotMap := some [("slot_0", "18:00 - 19:00")]
                    currentSlots := some ["18:00 - 19:00"] } },
       [.buttons "911" "Available time slots for 2025-01-01:"
          [("slot_0", "18:00 - 19:00")]]⟩ := by decide

/-- C8: at the commit transition, when the availability recheck succeeds
but the calendar-event creation throws, the failure is caught and
non-fatal: the session still gets `paid := true` and step `completed`, the
final confirmation summary is sent, and only `calendarEventId` is left
unset. -/
theorem c8_event_failure_nonfatal (env : WEnv) (b : Booking) (m : InMessage) (t : String)
    (hc : hasContent m = true) (hd : isDup b m = false)
    (hstep : b.step = "payment")
    (hmsg : canonicalMsg m = "payment_done" ∨ lowerStr (canonicalMsg m) = "paid" ∨
      lowerStr (canonicalMsg m) = "done")
    (hts : b.time_slot = some t) (havail : env.avail.contains t = true)
    (hev : env.eventResult = none) (hcal : b.calendarEventId = none) :
    ∃ b2, handleMessage env (some b) m =
        ⟨some b2, [.text m.sender (confirmText env b2)]⟩ ∧
      b2.paid = true ∧ b2.step = "completed" ∧ b2.calendarEventId = none := by
  have hmx : lowerStr (canonicalMsg m) ≠ "exit" := by
    rcases hmsg with h | h | h
    · rw [h]; decide
    · rw [h]; decide
    · rw [h]; decide
  have hmk : lowerStr (canonicalMsg m) ≠ "cancel" := by
    rcases hmsg with h | h | h
    · rw [h]; decide
    · rw [h]; decide
    · rw [h]; decide
  have hstep' : (recordId b m).step = "payment" :=
    (recordId_fields b m).2.1.trans hstep
  have hts' : (recordId b m).time_slot = some t :=
    (recordId_fields b m).2.2.2.1.trans hts
  have hcal' : (recordId b m).calendarEventId = none :=
    (recordId_fields b m).2.2.2.2.2.2.2.trans hcal
  refine ⟨{ recordId b m with paid := true, step := "completed" }, ?_, rfl, rfl, ?_⟩
  · rw [handleMessage_run env b m hc hd hmx hmk]
    unfold dispatchStep
    rw [hstep']
    rw [if_neg (by decide), if_neg (by decide), if_neg (by decide), if_neg (by decide),
        if_neg (by decide), if_neg (by decide), if_neg (by decide), if_pos rfl]
    simp only [stepPayment]
    rw [if_pos hmsg]
    simp only [hts', hev]
    rw [if_neg (fun hcontra => by rw [havail] at hcontra; exact absurd hcontra (by decide))]
  · show (recordId b m).calendarEventId = none
    exact hcal'

/-- C8 witness: a concrete commit with the slot still available and a
throwing event creation still completes and reports success. -/
theorem c8_event_failure_nonfatal_witness :
    ∃ b2, handleMessage { avail := ["18:00 - 19:00"] }
        (some { phone := "919", step := "payment", time_slot := some "18:00 - 19:00" })
        { id := some "m8", textBody := some "done", sender := "919" } =
        ⟨some b2,
         [.text "919" (confirmText { avail := ["18:00 - 19:00"] } b2)]⟩ ∧
      b2.paid = true ∧ b2.step = "completed" ∧ b2.calendarEventId = none :=
  c8_event_failure_nonfatal { avail := ["18:00 - 19:00"] }
    { phone := "919", step := "payment", time_slot := some "18:00 - 19:00" }
    { id := some "m8", textBody := some "done", sender := "919" }
    "18:00 - 19:00" (by decide) (by decide) rfl (Or.inr (Or.inr (by decide)))
    rfl (by decide) rfl rfl

/-- C6: graceful widening at the time-selection step.  When the chosen
time-of-day bucket intersected with the day's reported availability is
empty (both by normalized string equality and by the extracted-times
fallback, which is what `computeAvailable` returning `[]` means) but the
day reports at least one slot, the handler persists a freshly built
catalog of the full day's deduplicated normalized slots and sends the
widening message followed by the slot list; when the day reports no slots
at all, it instead sends the distinct no-slots message and re-offers the
time-of-day buttons without touching the stored catalog. -/
theorem c6_graceful_widening (env : WEnv) (b : Booking) (m : InMessage)
    (hc : hasContent m = true) (hd : isDup b m = false)
    (hstep : b.step = "time_selection")
    (htod : canonicalMsg m = "tod_morning" ∨ canonicalMsg m = "tod_afternoon" ∨
      canonicalMsg m = "tod_evening")
    (hempty : computeAvailable (todTemplate (canonicalMsg m))
      (dedupFirst (List.map normalizeSlot env.avail)) = []) :
    (env.avail ≠ [] →
      handleMessage env (some b) m =
        ⟨some { recordId b m with
            meta := { (recordId b m).meta with
              slotMap := some (buildPairs (dedupFirst (List.map normalizeSlot env.avail)))
              currentSlots := some (dedupFirst (List.map normalizeSlot env.avail)) } },
         [.text m.sender (widenText env (recordId b m)),
          .listRows m.sender (slotsHeader env (recordId b m))
            (buildPairs (dedupFirst (List.map normalizeSlot env.avail)))]⟩) ∧
    (env.avail = [] →
      handleMessage env (some b) m =
        ⟨some (recordId b m),
         [.text m.sender noTodText,
          .buttons m.sender "Choose time of day:" todButtons]⟩) := by
  have hmx : lowerStr (canonicalMsg m) ≠ "exit" := by
    rcases htod with h | h | h <;> rw [h] <;> decide
  have hmk : lowerStr (canonicalMsg m) ≠ "cancel" := by
    rcases htod with h | h | h <;> rw [h] <;> decide
  have hstep' : (recordId b m).step = "time_selection" :=
    (recordId_fields b m).2.1.trans hstep
  constructor
  · intro havail
    have hcond : ((computeAvailable (todTemplate (canonicalMsg m))
        (dedupFirst (List.map normalizeSlot env.avail))).isEmpty &&
        !(dedupFirst (List.map normalizeSlot env.avail)).isEmpty) = true := by
      rw [hempty]
      cases hq : dedupFirst (List.map normalizeSlot env.avail) with
      | nil => exact absurd (List.map_eq_nil_iff.mp (dedupFirst_nil_iff.mp hq)) havail
      | cons u us => rfl
    rw [handleMessage_run env b m hc hd hmx hmk]
    unfold dispatchStep
    rw [hstep']
    rw [if_neg (by decide), if_neg (by decide), if_neg (by decide), if_pos rfl]
    simp only [stepTimeSel]
    rw [if_pos htod, if_pos hcond]
  · intro he
    rw [handleMessage_run env b m hc hd hmx hmk]
    unfold dispatchStep
    rw [hstep']
    rw [if_neg (by decide), if_neg (by decide), if_neg (by decide), if_pos rfl]
    rcases htod with h | h | h <;> rw [h] <;> simp only [stepTimeSel] <;> rw [he] <;> rfl

/-- C6 witness: a morning pick against an evening-only day widens to the
full-day catalog, and a morning pick against an empty day re-offers the
buckets. -/
theorem c6_graceful_widening_witness :
    (handleMessage { avail := ["19:00 - 20:00"] }
      (some { phone := "912", step := "time_selection", date := some "2025-01-02" })
      { id := some "m6", buttonReply := some ("tod_morning", "Morning"),
        sender := "912" } =
      ⟨some
        { phone := "912"
          step := "time_selection"
          date := some "2025-01-02"
          meta := { lastMessageId := some "m6"
                    slotMap := some [("slot_0", "19:00 - 20:00")]
                    currentSlots := some ["19:00 - 20:00"] } },
       [.text "912" (widenText { avail := ["19:00 - 20:00"] }
          { phone := "912", step := "time_selection", date := some "2025-01-02",
            meta := { lastMessageId := some "m6" } }),
        .listRows "912" (slotsHeader { avail := ["19:00 - 20:00"] }
          { phone := "912", step := "time_selection", date := some "2025-01-02",
            meta := { lastMessageId := some "m6" } })
          [("slot_0", "19:00 - 20:00")]]⟩) ∧
    (handleMessage {}
      (some { phone := "912", step := "time_selection", date := some "2025-01-02" })
      { id := some "m6", buttonReply := some ("tod_morning", "Morning"),
        sender := "912" } =
      ⟨some { phone := "912", step := "time_selection", date := some "2025-01-02",
              meta := { lastMessageId := some "m6" } },
       [.text "912" noTodText,
        .buttons "912" "Choose time of day:" todButtons]⟩) :=
  ⟨(c6_graceful_widening { avail := ["19:00 - 20:00"] }
      { phone := "912", step := "time_selection", date := some "2025-01-02" }
      { id := some "m6", buttonReply := some ("tod_morning", "Morning"), sender := "912" }
      (by decide) (by decide) rfl (Or.inl rfl) (by decide)).1 (by decide),
   (c6_graceful_widening {}
      { phone := "912", step := "time_selection", date := some "2025-01-02" }
      { id := some "m6", buttonReply := some ("tod_morning", "Morning"), sender := "912" }
      (by decide) (by decide) rfl (Or.inl rfl) (by decide)).2 rfl⟩

/-- C1: slot-conflict safety at both recheck sites of the message handler.
If the slot chosen at the time-selection step has vanished from external
availability by the post-selection recheck, the handler reports the
conflict, keeps the step at time-selection, and sets neither `time_slot`
nor `paid`, so the session does not reach `completed`; if the stored slot
has vanished by the payment-step recheck, the handler reports the
conflict, rolls the step back to date selection, and leaves `paid`
untouched, so the session again neither completes nor becomes paid for
the vanished slot. -/
theorem c1_slot_conflict_safety (env : WEnv) (b : Booking) (m : InMessage)
    (hc : hasContent m = true) (hd : isDup b m = false) :
    ((b.step = "time_selection" ∧
      ¬(canonicalMsg m = "tod_morning" ∨ canonicalMsg m = "tod_afternoon" ∨
        canonicalMsg m = "tod_evening") ∧
      lowerStr (canonicalMsg m) ≠ "exit" ∧ lowerStr (canonicalMsg m) ≠ "cancel") →
      ∀ ch, truthyChosen (resolveChosen b.meta (canonicalMsg m)) = some ch →
        normalizeSlot ch ∉ List.map normalizeSlot env.avail →
        ∃ b2, handleMessage env (some b) m =
            ⟨some b2, [.text m.sender slotTakenText]⟩ ∧
          b2.step = "time_selection" ∧ b2.time_slot = b.time_slot ∧
          b2.paid = b.paid ∧ b2.step ≠ "completed") ∧
    ((b.step = "payment" ∧
      (canonicalMsg m = "payment_done" ∨ lowerStr (canonicalMsg m) = "paid" ∨
        lowerStr (canonicalMsg m) = "done")) →
      ∀ t, b.time_slot = some t →
        normalizeSlot t ∉ List.map normalizeSlot env.avail →
        ∃ b2, handleMessage env (some b) m =
            ⟨some b2, [.text m.sender paymentConflictText,
                       .buttons m.sender "Pick a new date:" retryDateButtons]⟩ ∧
          b2.paid = b.paid ∧ b2.time_slot = b.time_slot ∧
          b2.step = "date_selection" ∧ b2.step ≠ "completed") := by
  constructor
  · rintro ⟨hstep, htod, hmx, hmk⟩ ch hres hgone
    have hstep' : (recordId b m).step = "time_selection" :=
      (recordId_fields b m).2.1.trans hstep
    have hres' : truthyChosen (resolveChosen (recordId b m).meta (canonicalMsg m)) =
        some ch := by
      have hmeta : resolveChosen (recordId b m).meta (canonicalMsg m) =
          resolveChosen b.meta (canonicalMsg m) := by
        unfold resolveChosen
        rw [(recordId_fields b m).2.2.2.2.2.1, (recordId_fields b m).2.2.2.2.2.2.1]
      rw [hmeta, hres]
    have hcontains : (dedupFirst (List.map normalizeSlot env.avail)).contains
        (normalizeSlot ch) = false := by
      rw [dedupFirst_contains]
      exact contains_eq_false_of_not_mem hgone
    refine ⟨{ recordId b m with
        meta := { (recordId b m).meta with
          slotMap := some (buildPairs (((recordId b m).meta.currentSlots.getD []).filter
            (fun sl => (dedupFirst (List.map normalizeSlot env.avail)).contains
              (normalizeSlot sl))))
          currentSlots := some (((recordId b m).meta.currentSlots.getD []).filter
            (fun sl => (dedupFirst (List.map normalizeSlot env.avail)).contains
              (normalizeSlot sl))) } }, ?_, hstep',
      (recordId_fields b m).2.2.2.1, (recordId_fields b m).2.2.2.2.1,
      by show (recordId b m).step ≠ "completed"; rw [hstep']; decide⟩
    rw [handleMessage_run env b m hc hd hmx hmk]
    unfold dispatchStep
    rw [hstep']
    rw [if_neg (by decide), if_neg (by decide), if_neg (by decide), if_pos rfl]
    simp only [stepTimeSel]
    rw [if_neg htod]
    simp only [hres']
    rw [if_pos hcontains]
  · rintro ⟨hstep, hmsg⟩ t hts hgone
    have hmx : lowerStr (canonicalMsg m) ≠ "exit" := by
      rcases hmsg with h | h | h <;> rw [h] <;> decide
    have hmk : lowerStr (canonicalMsg m) ≠ "cancel" := by
      rcases hmsg with h | h | h <;> rw [h] <;> decide
    have hstep' : (recordId b m).step = "payment" :=
      (recordId_fields b m).2.1.trans hstep
    have hts' : (recordId b m).time_slot = some t :=
      (recordId_fields b m).2.2.2.1.trans hts
    have hnc : env.avail.contains t = false :=
      contains_eq_false_of_not_mem
        (fun hm => hgone (List.mem_map_of_mem normalizeSlot hm))
    refine ⟨{ recordId b m with step := "date_selection" }, ?_,
      (recordId_fields b m).2.2.2.2.1, (recordId_fields b m).2.2.2.1, rfl,
      by show ("date_selection" : String) ≠ "completed"; decide⟩
    rw [handleMessage_run env b m hc hd hmx hmk]
    unfold dispatchStep
    rw [hstep']
    rw [if_neg (by decide), if_neg (by decide), if_neg (by decide), if_neg (by decide),
        if_neg (by decide), if_neg (by decide), if_neg (by decide), if_pos rfl]
    simp only [stepPayment]
    rw [if_pos hmsg]
    simp only [hts']
    rw [if_pos hnc]

/-- C1 witness: a `slot_0` reply whose slot vanished before the
post-selection recheck, and a `done` reply whose slot vanished before the
payment recheck, both end in the conflict outcome with `paid` untouched
and the step away from `completed`. -/
theorem c1_slot_conflict_safety_witness :
    (∃ b2, handleMessage { avail := ["12:00 - 13:00"] }
        (some { phone := "913", step := "time_selection",
                meta := catalogMeta ["10:00 - 11:00"] })
        { id := some "mc1", buttonReply := some ("slot_0", "10:00 - 11:00"),
          sender := "913" } =
        ⟨some b2, [.text "913" slotTakenText]⟩ ∧
      b2.step = "time_selection" ∧
      b2.time_slot = ({ phone := "913"
                        step := "time_selection"
                        meta := catalogMeta ["10:00 - 11:00"] } : Booking).time_slot ∧
      b2.paid = ({ phone := "913"
                   step := "time_selection"
                   meta := catalogMeta ["10:00 - 11:00"] } : Booking).paid ∧
      b2.step ≠ "completed") ∧
    (∃ b2, handleMessage { avail := [] }
        (some { phone := "914", step := "payment",
                time_slot := some "10:00 - 11:00" })
        { id := some "mc2", textBody := some "done", sender := "914" } =
        ⟨some b2, [.text "914" paymentConflictText,
                   .buttons "914" "Pick a new date:" retryDateButtons]⟩ ∧
      b2.paid = ({ phone := "914"
                   step := "payment"
                   time_slot := some "10:00 - 11:00" } : Booking).paid ∧
      b2.time_slot = ({ phone := "914"
                        step := "payment"
                        time_slot := some "10:00 - 11:00" } : Booking).time_slot ∧
      b2.step = "date_selection" ∧ b2.step ≠ "completed") :=
  ⟨(c1_slot_conflict_safety { avail := ["12:00 - 13:00"] }
      { phone := "913", step := "time_selection",
        meta := catalogMeta ["10:00 - 11:00"] }
      { id := some "mc1", buttonReply := some ("slot_0", "10:00 - 11:00"),
        sender := "913" }
      (by decide) (by decide)).1
      ⟨rfl, by decide, by decide, by decide⟩
      "10:00 - 11:00" (by decide) (by decide),
   (c1_slot_conflict_safety { avail := [] }
      { phone := "914", step := "payment", time_slot := some "10:00 - 11:00" }
      { id := some "mc2", textBody := some "done", sender := "914" }
      (by decide) (by decide)).2
      ⟨rfl, Or.inr (Or.inr (by decide))⟩
      "10:00 - 11:00" rfl (by decide)⟩
